import Mathlib

/-!
# FastDB schema translator

A shallow embedding of `build_create_table_sql` (src/fastdb.cpp, lines 83-215)
and of the constants it reads, followed by theorems about it.

Conventions of the embedding

* `vector<string>` is `List String`; the cursor `i` of the source is a `Nat`
  and every `fields[i]` is the checked lookup `fields[i]?`.
* a `std::string` is a Lean `String` whose characters stand for the `char`
  units of the source; `size`, `find`, `substr`, `front`, `back` work on
  that sequence of units.
* `throw runtime_error(msg)` is `Except.error e`; `Err.what e` is `msg`.
* loops run on a fuel counter; `build_create_table_sql` supplies
  `fields.length + 1`, and running dry is the separate outcome
  `Err.outOfFuel`.
-/

namespace FastDB

/-! ## Constants (lines 11-13) -/

def FIELD_TYPES : List String :=
  ["--int", "--string", "--float", "--bool", "--date", "--blob", "--text"]

def FIELD_MODIFIERS : List String :=
  ["--pk", "--ai", "--notnull", "--unique", "--default", "--fk", "--ondelete", "--onupdate"]

def FK_ACTIONS : List String :=
  ["cascade", "restrict", "setnull", "setdefault", "noaction"]

/-! ## Outcomes -/

/-- The diagnostics of `build_create_table_sql`, one constructor per `throw`
site, and the outcomes that are not a `runtime_error` of the source. -/
inductive Err where
  /-- line 91 -/
  | invalidFieldType (tok : String)
  /-- line 98 -/
  | missingFieldName (tok : String)
  /-- line 112 -/
  | missingFkSpec
  /-- line 133 -/
  | invalidFkFormat
  /-- lines 141 and 150; `flag` is `--ondelete` or `--onupdate` -/
  | missingAction (flag : String)
  /-- lines 145 and 154 -/
  | invalidFkAction (action : String)
  /-- `std::out_of_range` thrown by `substr` when `pos > size()` -/
  | outOfRange
  /-- `front()` or `back()` of an empty string: undefined in the source -/
  | emptyString
  /-- the fuel of a loop ran dry -/
  | outOfFuel
  deriving DecidableEq, Repr

/-- The message of the `runtime_error`, as the source builds it; `none` for
the outcomes that are no `runtime_error` of the source. -/
def Err.what : Err → Option String
  | .invalidFieldType tok => some ("Tipo de campo inválido: " ++ tok)
  | .missingFieldName tok => some ("Falta nombre de campo después de: " ++ tok)
  | .missingFkSpec => some "Falta especificación de FK después de --fk"
  | .invalidFkFormat => some "Formato de FK inválido. Use tabla(columna) o tabla.columna"
  | .missingAction flag => some ("Falta acción después de " ++ flag)
  | .invalidFkAction action => some ("Acción FK inválida: " ++ action)
  | .outOfRange => none
  | .emptyString => none
  | .outOfFuel => none

/-! ## `std::string` operations -/

/-- Subtraction of `size_t` values: wraps around below zero. -/
def sizeSub (a b : Nat) : Nat :=
  if b ≤ a then a - b else a + 2 ^ 64 - b

/-- Index of the first `c` in a sequence of characters. -/
def findIdx (c : Char) : List Char → Option Nat
  | [] => none
  | x :: xs => if x = c then some 0 else (findIdx c xs).map (· + 1)

/-- `s.find(c)`; `none` stands for `string::npos`. -/
def find (s : String) (c : Char) : Option Nat :=
  findIdx c s.data

/-- `s.substr(pos, count)`: throws when `pos > size()`, otherwise the
characters from `pos`, `count` of them or as many as there are. -/
def substr (s : String) (pos : Nat) (count : Nat) : Except Err String :=
  if s.data.length < pos then .error .outOfRange
  else .ok ⟨(s.data.drop pos).take count⟩

/-- `s.substr(pos)`: throws when `pos > size()`, otherwise the characters
from `pos` to the end. -/
def substrFrom (s : String) (pos : Nat) : Except Err String :=
  if s.data.length < pos then .error .outOfRange
  else .ok ⟨s.data.drop pos⟩

/-- `s.front()`, defined on a non-empty string only. -/
def front (s : String) : Option Char := s.data.head?

/-- `s.back()`, defined on a non-empty string only. -/
def back (s : String) : Option Char := s.data.getLast?

/-! ## Foreign-key spec (lines 115-137) -/

/-- Lines 115-117: drops one pair of outer parentheses. -/
def stripParens (fk_spec : String) : Except Err String :=
  match front fk_spec, back fk_spec with
  | some f, some b =>
    if f = '(' ∧ b = ')' then substr fk_spec 1 (sizeSub fk_spec.data.length 2)
    else .ok fk_spec
  | _, _ => .error .emptyString

/-- Lines 118-137: splits the spec into `(fk_table, fk_column)`. -/
def splitFkSpec (fk_spec : String) : Except Err (String × String) :=
  -- lines 118-119
  match find fk_spec '.' with
  | some dot =>
    -- lines 122-123
    match substr fk_spec 0 dot, substrFrom fk_spec (dot + 1) with
    | .ok t, .ok c => .ok (t, c)
    | .error e, _ => .error e
    | _, .error e => .error e
  | none =>
    match find fk_spec '(' with
    | some paren =>
      -- lines 126-127
      match substr fk_spec 0 paren,
            substr fk_spec (paren + 1) (sizeSub (sizeSub fk_spec.data.length paren) 2) with
      | .ok t, .ok c => .ok (t, c)
      | .error e, _ => .error e
      | _, .error e => .error e
    | none =>
      -- lines 130-131
      let sep := match find fk_spec ',' with
        | some k => some k
        | none => find fk_spec ' '
      match sep with
      | none => .error .invalidFkFormat
      | some sep =>
        -- lines 135-136
        match substr fk_spec 0 sep, substrFrom fk_spec (sep + 1) with
        | .ok t, .ok c => .ok (t, c)
        | .error e, _ => .error e
        | _, .error e => .error e

/-- Lines 115-137: the operand of `--fk` as `(fk_table, fk_column)`. -/
def parseFkSpec (operand : String) : Except Err (String × String) :=
  match stripParens operand with
  | .error e => .error e
  | .ok fk_spec => splitFkSpec fk_spec

/-! ## Modifier loop (lines 104-161) -/

/-- The variables of one column that the modifier loop updates, with the
cursor `i` shared with the column loop. -/
structure ColState where
  i : Nat
  modifiers : List String
  fk_table : String
  fk_column : String
  on_delete : String
  on_update : String
  deriving DecidableEq, Repr

/-- Lines 104-105: the state at the entry of the modifier loop. -/
def ColState.init (i : Nat) : ColState :=
  { i := i, modifiers := [], fk_table := "", fk_column := "", on_delete := "", on_update := "" }

/-- Lines 108-160: one iteration of the modifier loop; `none` when the loop
condition of line 107 is false. -/
def modifierStep (fields : List String) (st : ColState) : Option (Except Err ColState) :=
  match fields[st.i]? with
  | none => none
  | some mod =>
    if mod ∉ FIELD_MODIFIERS then none
    else if mod = "--fk" then
      match fields[st.i + 1]? with
      | none => some (.error .missingFkSpec)
      | some fk_spec =>
        match parseFkSpec fk_spec with
        | .error e => some (.error e)
        | .ok (t, c) => some (.ok { st with i := st.i + 2, fk_table := t, fk_column := c })
    else if mod = "--ondelete" then
      match fields[st.i + 1]? with
      | none => some (.error (.missingAction "--ondelete"))
      | some action =>
        if action ∉ FK_ACTIONS then some (.error (.invalidFkAction action))
        else some (.ok { st with i := st.i + 2, on_delete := action })
    else if mod = "--onupdate" then
      match fields[st.i + 1]? with
      | none => some (.error (.missingAction "--onupdate"))
      | some action =>
        if action ∉ FK_ACTIONS then some (.error (.invalidFkAction action))
        else some (.ok { st with i := st.i + 2, on_update := action })
    else
      some (.ok { st with i := st.i + 1, modifiers := st.modifiers ++ [mod] })

/-- Lines 107-161: the modifier loop. -/
def modifierLoop (fields : List String) : Nat → ColState → Except Err ColState
  | 0, _ => .error .outOfFuel
  | fuel + 1, st =>
    match modifierStep fields st with
    | none => .ok st
    | some (.error e) => .error e
    | some (.ok st') => modifierLoop fields fuel st'

/-! ## Column definition (lines 163-185) -/

/-- Lines 167-170: the SQLite type of a declared type. -/
def sqliteType (field_type : String) : String :=
  if field_type = "int" then "INTEGER"
  else if field_type = "float" then "REAL"
  else if field_type = "bool" then "INTEGER"
  else "TEXT"

/-- Lines 174-185: the loop over the collected modifiers; it threads
`column_def` and the cursor `i`, which `--default` advances (line 183).
The flag `is_pk` of the source is written and never read. -/
def applyModifiers (fields : List String) : List String → String → Nat → String × Nat
  | [], column_def, i => (column_def, i)
  | mod :: rest, column_def, i =>
    if mod = "--pk" then applyModifiers fields rest (column_def ++ " PRIMARY KEY") i
    else if mod = "--ai" then applyModifiers fields rest (column_def ++ " AUTOINCREMENT") i
    else if mod = "--notnull" then applyModifiers fields rest (column_def ++ " NOT NULL") i
    else if mod = "--unique" then applyModifiers fields rest (column_def ++ " UNIQUE") i
    else if mod = "--default" then
      match fields[i]? with
      | some literal => applyModifiers fields rest (column_def ++ " DEFAULT " ++ literal) (i + 1)
      | none => applyModifiers fields rest column_def i
    else applyModifiers fields rest column_def i

/-- Lines 190-195: the constraint of a column, when `fk_table` is not empty. -/
def fkConstraint (field_name : String) (st : ColState) : Option String :=
  if st.fk_table = "" then none
  else
    let c := "FOREIGN KEY(" ++ field_name ++ ") REFERENCES " ++ st.fk_table ++ "(" ++ st.fk_column ++ ")"
    let c := if st.on_delete = "" then c else c ++ " ON DELETE " ++ st.on_delete
    let c := if st.on_update = "" then c else c ++ " ON UPDATE " ++ st.on_update
    some c

/-! ## Column loop (lines 88-196) -/

/-- The variables of the column loop. -/
structure LoopState where
  i : Nat
  columns : List String
  constraints : List String
  deriving DecidableEq, Repr

/-- Lines 89-195: one iteration of the column loop; `none` when the loop
condition of line 88 is false. -/
def columnStep (fields : List String) (s : LoopState) : Option (Except Err LoopState) :=
  match fields[s.i]? with
  | none => none
  | some ty =>
    -- lines 90-94
    if ty ∉ FIELD_TYPES then some (.error (.invalidFieldType ty))
    else
      match substrFrom ty 2 with
      | .error e => some (.error e)
      | .ok field_type =>
        -- lines 97-101
        match fields[s.i + 1]? with
        | none => some (.error (.missingFieldName ty))
        | some field_name =>
          -- lines 104-161
          match modifierLoop fields (fields.length + 1) (ColState.init (s.i + 2)) with
          | .error e => some (.error e)
          | .ok st =>
            -- lines 164-187
            let column_def := "  " ++ field_name ++ " " ++ sqliteType field_type
            let r := applyModifiers fields st.modifiers column_def st.i
            -- lines 190-195
            let constraints :=
              match fkConstraint field_name st with
              | some c => s.constraints ++ [c]
              | none => s.constraints
            some (.ok { i := r.2, columns := s.columns ++ [r.1], constraints := constraints })

/-- Lines 88-196: the column loop. -/
def columnLoop (fields : List String) : Nat → LoopState → Except Err LoopState
  | 0, _ => .error .outOfFuel
  | fuel + 1, s =>
    match columnStep fields s with
    | none => .ok s
    | some (.error e) => .error e
    | some (.ok s') => columnLoop fields fuel s'

/-! ## Assembly (lines 199-214) -/

/-- Lines 199-204: appends the column definitions; the test
`i < columns.size() - 1` holds when a column follows the current one. -/
def emitColumns (constraints : List String) : List String → String → String
  | [], sql => sql
  | c :: rest, sql =>
    let sql := sql ++ c
    if rest ≠ [] ∨ constraints ≠ [] then emitColumns constraints rest (sql ++ ",\n")
    else emitColumns constraints rest sql

/-- Lines 206-211: appends the constraints, each after two spaces. -/
def emitConstraints : List String → String → String
  | [], sql => sql
  | c :: rest, sql =>
    let sql := sql ++ "  " ++ c
    if rest ≠ [] then emitConstraints rest (sql ++ ",\n")
    else emitConstraints rest sql

/-- Lines 83-215. -/
def build_create_table_sql (table_name : String) (fields : List String) : Except Err String :=
  let sql := "CREATE TABLE " ++ table_name ++ " (\n"
  match columnLoop fields (fields.length + 1) { i := 0, columns := [], constraints := [] } with
  | .error e => .error e
  | .ok s =>
    let sql := emitColumns s.constraints s.columns sql
    let sql := emitConstraints s.constraints sql
    .ok (sql ++ "\n);")

/-! ## Vocabulary of the statements -/

/-- The modifiers that carry no operand in the modifier loop (line 158). -/
def PLAIN_MODIFIERS : List String := ["--pk", "--ai", "--notnull", "--unique"]

/-- The clause that lines 175-181 append for a modifier token. -/
def modifierClause (mod : String) : String :=
  if mod = "--pk" then " PRIMARY KEY"
  else if mod = "--ai" then " AUTOINCREMENT"
  else if mod = "--notnull" then " NOT NULL"
  else if mod = "--unique" then " UNIQUE"
  else ""

/-- The clauses of a list of modifier tokens, in the order of the list. -/
def clauses : List String → String
  | [] => ""
  | mod :: rest => modifierClause mod ++ clauses rest

/-- The declared type of a type flag: `fields[i].substr(2)` (line 93). -/
def declaredType (ty : String) : String := ⟨ty.data.drop 2⟩

/-- The characters that separate table and column in an FK spec, and the
closing parenthesis. -/
def SEPARATORS : List Char := ['.', '(', ')', ',', ' ']

/-- The string holds none of `.`, `(`, `)`, `,` and the space. -/
def NoSeparator (s : String) : Prop := ∀ c ∈ s.data, c ∉ SEPARATORS

instance (s : String) : Decidable (NoSeparator s) := by
  unfold NoSeparator; infer_instance

/-- The eight spellings of the FK target `(T, C)`: `T(C)`, `T.C`, `T,C`,
`T C`, and each of them inside one pair of parentheses. -/
def fkForms (T C : String) : List String :=
  [T ++ "(" ++ C ++ ")", T ++ "." ++ C, T ++ "," ++ C, T ++ " " ++ C,
   "(" ++ (T ++ "(" ++ C ++ ")") ++ ")", "(" ++ (T ++ "." ++ C) ++ ")",
   "(" ++ (T ++ "," ++ C) ++ ")", "(" ++ (T ++ " " ++ C) ++ ")"]

/-- The text ` <keyword> <action>` of an action that was given, and nothing
for one that was not. -/
def actionClause (keyword : String) : Option String → String
  | some action => " " ++ keyword ++ " " ++ action
  | none => ""

/-- The modifier tokens of an FK action that was given. -/
def actionTokens (flag : String) : Option String → List (List String)
  | some action => [[flag, action]]
  | none => []

/-- The lines of a statement joined by a comma and a newline, with nothing
after the last line. -/
def joinLines : List String → String
  | [] => ""
  | [line] => line
  | line :: rest => line ++ ",\n" ++ joinLines rest

/-- The column definition that an iteration of the column loop builds from
the name, the type flag and the state `st` that the modifier loop returned
(lines 164-185). -/
def columnDef (fields : List String) (ty name : String) (st : ColState) : String :=
  (applyModifiers fields st.modifiers
    ("  " ++ name ++ " " ++ sqliteType (declaredType ty)) st.i).1

/-- The state of the column loop before its first iteration (lines 85-88). -/
def LoopState.start : LoopState := { i := 0, columns := [], constraints := [] }

/-- The states in which a run on `fields` stands at the head of the column
loop (line 88). -/
inductive ColumnReach (fields : List String) : LoopState → Prop
  | start : ColumnReach fields LoopState.start
  | step {s s' : LoopState} : ColumnReach fields s → columnStep fields s = some (.ok s') →
      ColumnReach fields s'

/-- The states in which the modifier loop entered at cursor `i0` stands at
its head (line 107). -/
inductive ModifierReach (fields : List String) (i0 : Nat) : ColState → Prop
  | start : ModifierReach fields i0 (ColState.init i0)
  | step {st st' : ColState} : ModifierReach fields i0 st →
      modifierStep fields st = some (.ok st') → ModifierReach fields i0 st'

/-- A run on `fields` reads the token at `st.i` as a modifier of a column:
the column loop reaches a column with a type flag and a name, and the
modifier loop of that column reaches `st`. -/
def AtModifier (fields : List String) (st : ColState) : Prop :=
  ∃ (s : LoopState) (ty name : String), ColumnReach fields s ∧
    fields[s.i]? = some ty ∧ ty ∈ FIELD_TYPES ∧ fields[s.i + 1]? = some name ∧
    ModifierReach fields (s.i + 2) st

/-- The clauses of the collected modifiers `mods` when the tokens `rest`
follow the run of modifiers in the input: every `--default` takes the next
token of `rest` that is still free as its literal, and writes nothing when no
token is left. The second component counts the tokens taken. -/
def clausesWithLiterals : List String → List String → String × Nat
  | [], _ => ("", 0)
  | mod :: mods, rest =>
    if mod = "--default" then
      match rest with
      | literal :: rest' =>
        (" DEFAULT " ++ literal ++ (clausesWithLiterals mods rest').1,
          (clausesWithLiterals mods rest').2 + 1)
      | [] => clausesWithLiterals mods []
    else (modifierClause mod ++ (clausesWithLiterals mods rest).1,
          (clausesWithLiterals mods rest).2)

/-- The diagnostics that the source raises with `throw runtime_error`: the
invalid type, the missing name, the missing FK spec, the missing action, the
invalid FK format and the invalid FK action. -/
def Err.IsDiagnostic : Err → Prop
  | .invalidFieldType _ => True
  | .missingFieldName _ => True
  | .missingFkSpec => True
  | .invalidFkFormat => True
  | .missingAction _ => True
  | .invalidFkAction _ => True
  | .outOfRange => False
  | .emptyString => False
  | .outOfFuel => False

/-! ## The engine and the terminal

The SQLite engine is outside the program; `Engine` holds what its calls
return. What the program does to the engine and to the terminal is recorded
as a list of `Event`s, in the order of the calls. -/

/-- What `sqlite3_open` returns: `SQLITE_OK`, or a failure that leaves a
handle in `db` (`handle = true`) or leaves `db` null. -/
inductive OpenResult where
  | ok
  | failed (handle : Bool)
  deriving DecidableEq, Repr

/-- The answers of the engine. -/
structure Engine where
  /-- `sqlite3_open(file)` -/
  openDb : String → OpenResult
  /-- `sqlite3_errmsg(db)` after a failed open -/
  openMessage : String → String
  /-- `sqlite3_exec(sql)`: `none` for `SQLITE_OK`, otherwise the message -/
  exec : String → Option String
  /-- `sqlite3_prepare_v2(sql)`: the message of a failure, or the names of
  the columns and the rows, a cell being `none` for NULL -/
  prepare : String → Except String (List String × List (List (Option String)))

/-- The calls to the engine and the writes to the terminal. -/
inductive Event where
  /-- text written to `cout` -/
  | stdout (text : String)
  /-- text written to `cerr` -/
  | stderr (text : String)
  /-- `show_help()` -/
  | help
  /-- the call `sqlite3_open(file)` -/
  | sqlite3_open (file : String)
  /-- the call `sqlite3_exec(sql)` -/
  | sqlite3_exec (sql : String)
  /-- the call `sqlite3_prepare_v2(sql)` -/
  | sqlite3_prepare (sql : String)
  /-- the call `sqlite3_finalize` -/
  | sqlite3_finalize
  /-- the call `sqlite3_close(db)` -/
  | sqlite3_close
  deriving DecidableEq, Repr

/-- How a handler ends: it returns, it throws a `runtime_error` with the
message `what`, or its behaviour is undefined in the source. -/
inductive Outcome where
  | returned
  | thrown (what : String)
  | undefined
  deriving DecidableEq, Repr

/-- `left << setw(20) << text`: the text, filled with spaces up to the width
20. -/
def setw20 (text : String) : String :=
  text ++ ⟨List.replicate (20 - text.length) ' '⟩

/-- Lines 56-58 and 63-66: the cells of one row, each in a field of width 20
and followed by ` | `. -/
def printCells : List String → String
  | [] => ""
  | cell :: rest => setw20 cell ++ " | " ++ printCells rest

/-- Lines 62-68: the rows, `NULL` for an absent value, a newline after each
row. -/
def printRows : List (List (Option String)) → String
  | [] => ""
  | row :: rest => printCells (row.map fun v => v.getD "NULL") ++ "\n" ++ printRows rest

/-- Lines 43-81. -/
def execute_sql (w : Engine) (sql : String) (show_results : Bool) : List Event × Bool :=
  if show_results then
    match w.prepare sql with
    | .error msg => ([.sqlite3_prepare sql, .stderr ("Error en SQL: " ++ msg ++ "\n")], false)
    | .ok (names, rows) =>
      ([.sqlite3_prepare sql,
        .stdout (printCells names ++ "\n" ++
          ⟨List.replicate (names.length * 22) '-'⟩ ++ "\n" ++ printRows rows),
        .sqlite3_finalize], true)
  else
    match w.exec sql with
    | some msg => ([.sqlite3_exec sql, .stderr ("Error en SQL: " ++ msg ++ "\n")], false)
    | none => ([.sqlite3_exec sql], true)

/-! ## Command handlers (lines 217-324) -/

/-- Lines 217-233. The vector has four elements or more exactly when it
matches the pattern of the second case. -/
def handle_create (w : Engine) (args : List String) : List Event × Outcome :=
  match args with
  | a0 :: table_name :: a2 :: f :: rest =>
    if a0 ≠ "--table" ∨ a2 ≠ "fields" then
      ([], .thrown "Sintaxis inválida. Uso: create --table <nombre> fields <definiciones>")
    else
      match build_create_table_sql table_name (f :: rest) with
      | .error e =>
        match e.what with
        | some what => ([], .thrown what)
        | none => ([], .undefined)
      | .ok sql =>
        let r := execute_sql w sql false
        if r.2 then
          (.stdout ("SQL:\n" ++ sql ++ "\n") :: r.1 ++
            [.stdout ("Tabla '" ++ table_name ++ "' creada exitosamente!\n")], .returned)
        else (.stdout ("SQL:\n" ++ sql ++ "\n") :: r.1, .thrown "Error al crear tabla")
  | _ => ([], .thrown "Sintaxis inválida. Uso: create --table <nombre> fields <definiciones>")

/-- Lines 235-251. -/
def handle_insert (w : Engine) (args : List String) : List Event × Outcome :=
  match args with
  | a0 :: table_name :: a2 :: values :: _ =>
    if a0 ≠ "--table" ∨ a2 ≠ "values" then
      ([], .thrown "Sintaxis inválida. Uso: insert --table <nombre> values <valores>")
    else
      let sql := "INSERT INTO " ++ table_name ++ " VALUES (" ++ values ++ ");"
      let r := execute_sql w sql false
      if r.2 then
        (r.1 ++ [.stdout ("Datos insertados en '" ++ table_name ++ "'\n")], .returned)
      else (r.1, .thrown "Error al insertar datos")
  | _ => ([], .thrown "Sintaxis inválida. Uso: insert --table <nombre> values <valores>")

/-- Lines 253-269. -/
def handle_update (w : Engine) (args : List String) : List Event × Outcome :=
  match args with
  | a0 :: table_name :: a2 :: set_clause :: a4 :: where_clause :: _ =>
    if a0 ≠ "--table" ∨ a2 ≠ "set" ∨ a4 ≠ "where" then
      ([], .thrown
        "Sintaxis inválida. Uso: update --table <nombre> set <campo=valor> where <condicion>")
    else
      let sql := "UPDATE " ++ table_name ++ " SET " ++ set_clause ++ " WHERE " ++
        where_clause ++ ";"
      let r := execute_sql w sql false
      if r.2 then
        (r.1 ++ [.stdout ("Datos actualizados en '" ++ table_name ++ "'\n")], .returned)
      else (r.1, .thrown "Error al actualizar datos")
  | _ => ([], .thrown
      "Sintaxis inválida. Uso: update --table <nombre> set <campo=valor> where <condicion>")

/-- Lines 271-286. -/
def handle_delete (w : Engine) (args : List String) : List Event × Outcome :=
  match args with
  | a0 :: table_name :: a2 :: where_clause :: _ =>
    if a0 ≠ "--table" ∨ a2 ≠ "where" then
      ([], .thrown "Sintaxis inválida. Uso: delete --table <nombre> where <condicion>")
    else
      let sql := "DELETE FROM " ++ table_name ++ " WHERE " ++ where_clause ++ ";"
      let r := execute_sql w sql false
      if r.2 then
        (r.1 ++ [.stdout ("Datos eliminados de '" ++ table_name ++ "'\n")], .returned)
      else (r.1, .thrown "Error al eliminar datos")
  | _ => ([], .thrown "Sintaxis inválida. Uso: delete --table <nombre> where <condicion>")

/-- The variables of the loop of lines 299-308. -/
structure SelectState where
  i : Nat
  where_clause : String
  join_clause : String
  deriving DecidableEq, Repr

/-- Lines 300-307 and the `i++` of line 299: one iteration of the loop;
`none` when `i < args.size()` is false. The guard `i + 1 < args.size()` holds
exactly when `args[i + 1]?` is a token, and `i + 3 < args.size()` exactly
when `args[i + 3]?` is one. -/
def selectStep (args : List String) (s : SelectState) : Option SelectState :=
  match args[s.i]? with
  | none => none
  | some tok =>
    match decide (tok = "where"), args[s.i + 1]? with
    | true, some w => some { s with i := s.i + 2, where_clause := " WHERE " ++ w }
    | _, _ =>
      match decide (tok = "join"), args[s.i + 1]?, args[s.i + 3]? with
      | true, some j, some c =>
        some { s with i := s.i + 4, join_clause := s.join_clause ++ " JOIN " ++ j ++ " ON " ++ c }
      | _, _, _ => some { s with i := s.i + 1 }

/-- Lines 299-308: the loop, on a fuel counter; `none` when the fuel ran dry. -/
def selectLoop (args : List String) : Nat → SelectState → Option SelectState
  | 0, _ => none
  | fuel + 1, s =>
    match selectStep args s with
    | none => some s
    | some s' => selectLoop args fuel s'

/-- Lines 288-316. -/
def handle_select (w : Engine) (args : List String) : List Event × Outcome :=
  match args with
  | fields :: a1 :: table_name :: _ =>
    if a1 ≠ "from" then
      ([], .thrown "Sintaxis inválida. Uso: select [*|campos] from <tabla> [where <condicion>]")
    else
      match selectLoop args (args.length + 1) { i := 3, where_clause := "", join_clause := "" } with
      | none => ([], .undefined)  -- the fuel does not run dry: `selectLoop_total`
      | some s =>
        let sql := "SELECT " ++ fields ++ " FROM " ++ table_name ++ s.join_clause ++
          s.where_clause ++ ";"
        let r := execute_sql w sql true
        if r.2 then (.stdout ("SQL:\n" ++ sql ++ "\n") :: r.1, .returned)
        else (.stdout ("SQL:\n" ++ sql ++ "\n") :: r.1, .thrown "Error en la consulta")
  | _ => ([], .thrown "Sintaxis inválida. Uso: select [*|campos] from <tabla> [where <condicion>]")

/-- Lines 318-324. -/
def handle_transaction (w : Engine) (action : String) : List Event × Outcome :=
  let sql := action ++ ";"
  let r := execute_sql w sql false
  if r.2 then (r.1 ++ [.stdout ("Transacción '" ++ action ++ "' ejecutada\n")], .returned)
  else (r.1, .thrown "Error en transacción")

/-! ## Entry (lines 326-387) -/

/-- Lines 355-375: the handler of the command. -/
def dispatch (w : Engine) (command : String) (args : List String) : List Event × Outcome :=
  if command = "create" then handle_create w args
  else if command = "insert" then handle_insert w args
  else if command = "update" then handle_update w args
  else if command = "delete" then handle_delete w args
  else if command = "select" then handle_select w args
  else if command = "begin" ∨ command = "commit" ∨ command = "rollback" then
    handle_transaction w command
  else ([], .thrown ("Comando no reconocido: " ++ command))

/-- Lines 379-384: the `catch` block; `db` tells whether the handle is not
null. -/
def catchBlock (what : String) (db : Bool) : List Event :=
  [.stderr ("Error: " ++ what ++ "\n"), .help] ++ (if db then [.sqlite3_close] else [])

/-- Lines 326-387: the events of a run and its exit code, `none` when the
behaviour of the run is undefined. `argv` starts with the name of the
program. -/
def main (w : Engine) (argv : List String) : List Event × Option Nat :=
  match argv with
  | [] => ([.help], some 1)
  | [_] => ([.help], some 1)
  | _ :: a0 :: rest =>
    -- line 336
    match (if a0 ≠ "--db" then none else rest.head?) with
    | none =>
      (catchBlock "Debe especificar base de datos con --db <archivo.db>" false, some 1)
    | some db_file =>
      -- lines 341-343
      match w.openDb db_file with
      | .failed handle =>
        (.sqlite3_open db_file ::
          catchBlock ("No se pudo abrir la base de datos: " ++ w.openMessage db_file) handle,
          some 1)
      | .ok =>
        -- lines 345-353
        match rest.tail with
        | [] => ([.sqlite3_open db_file, .help], some 0)
        | command :: args =>
          let r := dispatch w command args
          match r.2 with
          | .returned => (.sqlite3_open db_file :: r.1 ++ [.sqlite3_close], some 0)
          | .thrown what => (.sqlite3_open db_file :: r.1 ++ catchBlock what true, some 1)
          | .undefined => (.sqlite3_open db_file :: r.1, none)

/-- An engine that opens every file and runs every statement, and has no
rows to show. -/
def Engine.accepting : Engine :=
  { openDb := fun _ => .ok,
    openMessage := fun _ => "",
    exec := fun _ => none,
    prepare := fun _ => .ok ([], []) }

/-- The tokens of the join groups `(J, C)`: `join J on C` for each. -/
def joinTokens : List (String × String) → List String
  | [] => []
  | (J, C) :: rest => "join" :: J :: "on" :: C :: joinTokens rest

/-- The fragments ` JOIN J ON C` of the join groups, in their order. -/
def joinClauses : List (String × String) → String
  | [] => ""
  | (J, C) :: rest => " JOIN " ++ J ++ " ON " ++ C ++ joinClauses rest

/-- The state of the loop of `handle_select` before its first iteration
(lines 295-299). -/
def SelectState.start : SelectState := { i := 3, where_clause := "", join_clause := "" }

/-- The statement `SELECT F FROM T[ JOIN J ON C]*[ WHERE W];`. -/
def selectSql (F T : String) (groups : List (String × String)) (oW : Option String) : String :=
  "SELECT " ++ F ++ " FROM " ++ T ++ joinClauses groups ++ actionClause "WHERE" oW ++ ";"

/-- Every `--default` of every column that the run on `A` accepts finds its
literal within `A`: behind the run of modifiers of the column, `A` holds at
least as many tokens as the column has `--default`s. -/
def DefaultsServed (A : List String) : Prop :=
  ∀ (s s' : LoopState) (st : ColState), ColumnReach A s → columnStep A s = some (.ok s') →
    modifierLoop A (A.length + 1) (ColState.init (s.i + 2)) = .ok st →
    st.i + st.modifiers.count "--default" ≤ A.length

/-! ## Cursor and fuel -/

theorem getElem?_lt {fields : List String} {i : Nat} {x : String}
    (h : fields[i]? = some x) : i < fields.length :=
  (List.getElem?_eq_some_iff.mp h).1

theorem modifierStep_cursor {fields : List String} {st st' : ColState}
    (h : modifierStep fields st = some (.ok st')) :
    st.i < st'.i ∧ st'.i ≤ fields.length := by
  unfold modifierStep at h
  split at h
  · simp at h
  · rename_i mod hmod
    have hlt := getElem?_lt hmod
    split at h
    · simp at h
    · split at h
      · split at h
        · simp at h
        · rename_i spec hspec
          have hlt2 := getElem?_lt hspec
          split at h
          · simp at h
          · simp at h; subst h; simp; omega
      · split at h
        · split at h
          · simp at h
          · rename_i act hact
            have hlt2 := getElem?_lt hact
            split at h
            · simp at h
            · simp at h; subst h; simp; omega
        · split at h
          · split at h
            · simp at h
            · rename_i act hact
              have hlt2 := getElem?_lt hact
              split at h
              · simp at h
              · simp at h; subst h; simp; omega
          · simp at h; subst h; simp; omega

theorem modifierLoop_fuel (fields : List String) :
    ∀ (f1 f2 : Nat) (st : ColState), fields.length - st.i < f1 → fields.length - st.i < f2 →
      modifierLoop fields f1 st = modifierLoop fields f2 st := by
  intro f1
  induction f1 with
  | zero => intro f2 st h1; omega
  | succ f1 ih =>
    intro f2 st h1 h2
    cases f2 with
    | zero => omega
    | succ f2 =>
      simp only [modifierLoop]
      cases hstep : modifierStep fields st with
      | none => rfl
      | some r =>
        cases r with
        | error e => rfl
        | ok st' =>
          have hc := modifierStep_cursor hstep
          exact ih f2 st' (by omega) (by omega)

theorem modifierLoop_step {fields : List String} {st st' : ColState}
    (h : modifierStep fields st = some (.ok st')) :
    modifierLoop fields (fields.length + 1) st = modifierLoop fields (fields.length + 1) st' := by
  have hc := modifierStep_cursor h
  rw [modifierLoop, h]
  exact modifierLoop_fuel fields _ _ st' (by omega) (by omega)

theorem modifierLoop_error {fields : List String} {st : ColState} {e : Err}
    (h : modifierStep fields st = some (.error e)) :
    modifierLoop fields (fields.length + 1) st = .error e := by
  rw [modifierLoop, h]

theorem modifierLoop_done {fields : List String} {st : ColState}
    (h : modifierStep fields st = none) :
    modifierLoop fields (fields.length + 1) st = .ok st := by
  rw [modifierLoop, h]

theorem modifierLoop_cursor (fields : List String) :
    ∀ (fuel : Nat) (st st' : ColState), modifierLoop fields fuel st = .ok st' →
      st.i ≤ st'.i ∧ (st.i ≤ fields.length → st'.i ≤ fields.length) := by
  intro fuel
  induction fuel with
  | zero => intro st st' h; simp [modifierLoop] at h
  | succ fuel ih =>
    intro st st' h
    simp only [modifierLoop] at h
    cases hstep : modifierStep fields st with
    | none => rw [hstep] at h; simp at h; subst h; simp
    | some r =>
      cases r with
      | error e => rw [hstep] at h; simp at h
      | ok st1 =>
        rw [hstep] at h
        have hc := modifierStep_cursor hstep
        have := ih st1 st' h
        constructor
        · omega
        · intro _; exact this.2 hc.2

theorem applyModifiers_cursor (fields : List String) :
    ∀ (mods : List String) (column_def : String) (i : Nat),
      i ≤ (applyModifiers fields mods column_def i).2 ∧
      (i ≤ fields.length → (applyModifiers fields mods column_def i).2 ≤ fields.length) := by
  intro mods
  induction mods with
  | nil => intro cd i; simp [applyModifiers]
  | cons m rest ih =>
    intro cd i
    simp only [applyModifiers]
    split
    · exact ih _ _
    · split
      · exact ih _ _
      · split
        · exact ih _ _
        · split
          · exact ih _ _
          · split
            · split
              · rename_i lit hlit
                have hlt := getElem?_lt hlit
                have := ih (cd ++ " DEFAULT " ++ lit) (i + 1)
                constructor
                · omega
                · intro _; exact this.2 (by omega)
              · exact ih _ _
            · exact ih _ _

theorem columnStep_cursor {fields : List String} {s s' : LoopState}
    (h : columnStep fields s = some (.ok s')) :
    s.i + 2 ≤ s'.i ∧ s'.i ≤ fields.length := by
  unfold columnStep at h
  split at h
  · simp at h
  · split at h
    · simp at h
    · split at h
      · simp at h
      · split at h
        · simp at h
        · rename_i name hname
          have hlt := getElem?_lt hname
          split at h
          · simp at h
          · rename_i st hst
            have hm := modifierLoop_cursor fields _ _ _ hst
            simp [ColState.init] at hm
            rename_i ft _ _ _
            simp at h; subst h; simp only
            have ha := applyModifiers_cursor fields st.modifiers
              ("  " ++ name ++ " " ++ sqliteType ft) st.i
            constructor
            · omega
            · exact ha.2 (hm.2 (by omega))

theorem columnLoop_fuel (fields : List String) :
    ∀ (f1 f2 : Nat) (s : LoopState), fields.length - s.i < f1 → fields.length - s.i < f2 →
      columnLoop fields f1 s = columnLoop fields f2 s := by
  intro f1
  induction f1 with
  | zero => intro f2 s h1; omega
  | succ f1 ih =>
    intro f2 s h1 h2
    cases f2 with
    | zero => omega
    | succ f2 =>
      simp only [columnLoop]
      cases hstep : columnStep fields s with
      | none => rfl
      | some r =>
        cases r with
        | error e => rfl
        | ok s' =>
          have hc := columnStep_cursor hstep
          exact ih f2 s' (by omega) (by omega)

theorem columnLoop_step {fields : List String} {s s' : LoopState}
    (h : columnStep fields s = some (.ok s')) :
    columnLoop fields (fields.length + 1) s = columnLoop fields (fields.length + 1) s' := by
  have hc := columnStep_cursor h
  rw [columnLoop, h]
  exact columnLoop_fuel fields _ _ s' (by omega) (by omega)

theorem columnLoop_error {fields : List String} {s : LoopState} {e : Err}
    (h : columnStep fields s = some (.error e)) :
    columnLoop fields (fields.length + 1) s = .error e := by
  rw [columnLoop, h]

theorem columnLoop_done {fields : List String} {s : LoopState}
    (h : columnStep fields s = none) :
    columnLoop fields (fields.length + 1) s = .ok s := by
  rw [columnLoop, h]

/-! ## Reading the tokens at the cursor -/

theorem drop_cons {fields : List String} {i : Nat} {x : String} {tl : List String}
    (h : fields.drop i = x :: tl) : fields[i]? = some x ∧ fields.drop (i + 1) = tl := by
  constructor
  · have := List.getElem?_drop fields i 0
    rw [h] at this
    simpa using this.symm
  · have : fields.drop (i + 1) = (fields.drop i).drop 1 := by
      rw [List.drop_drop]
    rw [this, h]; rfl

theorem drop_nil {fields : List String} {i : Nat}
    (h : fields.drop i = []) : fields[i]? = none := by
  have := List.getElem?_drop fields i 0
  rw [h] at this
  simpa using this.symm

theorem substr_type {ty : String} (h : ty ∈ FIELD_TYPES) :
    substrFrom ty 2 = .ok (declaredType ty) := by
  simp only [FIELD_TYPES, List.mem_cons, List.mem_singleton, List.not_mem_nil, or_false] at h
  rcases h with h | h | h | h | h | h | h <;> subst h <;> rfl

/-! ## Foreign-key specs -/

theorem findIdx_not_mem {c : Char} : ∀ {l : List Char}, c ∉ l → findIdx c l = none
  | [], _ => rfl
  | x :: xs, h => by
    have hx : x ≠ c := fun e => h (e ▸ List.mem_cons_self _ _)
    have hxs : c ∉ xs := fun e => h (List.mem_cons_of_mem _ e)
    simp [findIdx, hx, findIdx_not_mem hxs]

theorem findIdx_append {c : Char} (r : List Char) :
    ∀ {l : List Char}, c ∉ l → findIdx c (l ++ c :: r) = some l.length
  | [], _ => by simp [findIdx]
  | x :: xs, h => by
    have hx : x ≠ c := fun e => h (e ▸ List.mem_cons_self _ _)
    have hxs : c ∉ xs := fun e => h (List.mem_cons_of_mem _ e)
    simp [findIdx, hx, findIdx_append r hxs]

theorem data_ne_nil {s : String} (h : s ≠ "") : s.data ≠ [] :=
  fun h' => h (String.ext h')

theorem NoSeparator.not_mem {s : String} (h : NoSeparator s) {c : Char} (hc : c ∈ SEPARATORS) :
    c ∉ s.data :=
  fun hm => h c hm hc

theorem stripParens_plain {X : String} {x : Char} {xs : List Char}
    (hX : X.data = x :: xs) (hx : x ≠ '(') : stripParens X = .ok X := by
  have hf : front X = some x := by simp [front, hX]
  have hb : ∃ b, back X = some b := by
    cases h : back X with
    | none => simp [back, hX] at h
    | some b => exact ⟨b, rfl⟩
  obtain ⟨b, hb⟩ := hb
  simp [stripParens, hf, hb, hx]

theorem stripParens_wrapped (X : String) : stripParens ("(" ++ X ++ ")") = .ok X := by
  have hd : ("(" ++ X ++ ")").data = '(' :: (X.data ++ [')']) := by
    simp [String.data_append]
  have hf : front ("(" ++ X ++ ")") = some '(' := by simp [front, hd]
  have hb : back ("(" ++ X ++ ")") = some ')' := by
    simp only [back, hd]
    rw [show '(' :: (X.data ++ [')']) = ('(' :: X.data) ++ [')'] from rfl,
      List.getLast?_concat]
  have hs : sizeSub ('(' :: (X.data ++ [')'])).length 2 = X.data.length := by
    simp [sizeSub]
  simp only [stripParens, hf, hb, substr, hd, hs]
  simp

theorem drop_succ_append (T : String) (r : List Char) (c : Char) :
    List.drop (T.length + 1) (T.data ++ c :: r) = r := by
  show List.drop (T.data.length + 1) (T.data ++ c :: r) = r
  rw [List.drop_append]; rfl

theorem take_length_append (T : String) (r : List Char) :
    List.take T.length (T.data ++ r) = T.data :=
  List.take_left T.data r

theorem splitFkSpec_dot {T C : String} (hT : '.' ∉ T.data) :
    splitFkSpec (T ++ "." ++ C) = .ok (T, C) := by
  have hd : (T ++ "." ++ C).data = T.data ++ '.' :: C.data := by
    simp [String.data_append]
  have hfind : find (T ++ "." ++ C) '.' = some T.data.length := by
    rw [find, hd]; exact findIdx_append _ hT
  simp only [splitFkSpec, hfind, substr, substrFrom, hd]
  simp [drop_succ_append, take_length_append]

theorem splitFkSpec_paren {T C : String} (hT : NoSeparator T) (hC : NoSeparator C) :
    splitFkSpec (T ++ "(" ++ C ++ ")") = .ok (T, C) := by
  have hd : (T ++ "(" ++ C ++ ")").data = T.data ++ '(' :: (C.data ++ [')']) := by
    simp [String.data_append]
  have hdot : find (T ++ "(" ++ C ++ ")") '.' = none := by
    rw [find, hd]
    apply findIdx_not_mem
    have h1 := hT.not_mem (show '.' ∈ SEPARATORS by decide)
    have h2 := hC.not_mem (show '.' ∈ SEPARATORS by decide)
    simp [h1, h2]
  have hfind : find (T ++ "(" ++ C ++ ")") '(' = some T.data.length := by
    rw [find, hd]; exact findIdx_append _ (hT.not_mem (by decide))
  have hs : sizeSub (sizeSub (T.data ++ '(' :: (C.data ++ [')'])).length T.data.length) 2
      = C.data.length := by
    simp [sizeSub]
  simp only [splitFkSpec, hdot, hfind, substr, hd, hs]
  simp [drop_succ_append, take_length_append]

theorem splitFkSpec_comma {T C : String} (hT : NoSeparator T) (hC : NoSeparator C) :
    splitFkSpec (T ++ "," ++ C) = .ok (T, C) := by
  have hd : (T ++ "," ++ C).data = T.data ++ ',' :: C.data := by
    simp [String.data_append]
  have hdot : find (T ++ "," ++ C) '.' = none := by
    rw [find, hd]
    apply findIdx_not_mem
    have h1 := hT.not_mem (show '.' ∈ SEPARATORS by decide)
    have h2 := hC.not_mem (show '.' ∈ SEPARATORS by decide)
    simp [h1, h2]
  have hpar : find (T ++ "," ++ C) '(' = none := by
    rw [find, hd]
    apply findIdx_not_mem
    have h1 := hT.not_mem (show '(' ∈ SEPARATORS by decide)
    have h2 := hC.not_mem (show '(' ∈ SEPARATORS by decide)
    simp [h1, h2]
  have hfind : find (T ++ "," ++ C) ',' = some T.data.length := by
    rw [find, hd]; exact findIdx_append _ (hT.not_mem (by decide))
  simp only [splitFkSpec, hdot, hpar, hfind, substr, substrFrom, hd]
  simp [drop_succ_append, take_length_append]

theorem splitFkSpec_space {T C : String} (hT : NoSeparator T) (hC : NoSeparator C) :
    splitFkSpec (T ++ " " ++ C) = .ok (T, C) := by
  have hd : (T ++ " " ++ C).data = T.data ++ ' ' :: C.data := by
    simp [String.data_append]
  have hdot : find (T ++ " " ++ C) '.' = none := by
    rw [find, hd]
    apply findIdx_not_mem
    have h1 := hT.not_mem (show '.' ∈ SEPARATORS by decide)
    have h2 := hC.not_mem (show '.' ∈ SEPARATORS by decide)
    simp [h1, h2]
  have hpar : find (T ++ " " ++ C) '(' = none := by
    rw [find, hd]
    apply findIdx_not_mem
    have h1 := hT.not_mem (show '(' ∈ SEPARATORS by decide)
    have h2 := hC.not_mem (show '(' ∈ SEPARATORS by decide)
    simp [h1, h2]
  have hcom : find (T ++ " " ++ C) ',' = none := by
    rw [find, hd]
    apply findIdx_not_mem
    have h1 := hT.not_mem (show ',' ∈ SEPARATORS by decide)
    have h2 := hC.not_mem (show ',' ∈ SEPARATORS by decide)
    simp [h1, h2]
  have hfind : find (T ++ " " ++ C) ' ' = some T.data.length := by
    rw [find, hd]; exact findIdx_append _ (hT.not_mem (by decide))
  simp only [splitFkSpec, hdot, hpar, hcom, hfind, substr, substrFrom, hd]
  simp [drop_succ_append, take_length_append]

/-- An operand that starts with a table name free of separators keeps its
outer characters. -/
theorem stripParens_table {T R : String} (hT : T ≠ "") (hs : NoSeparator T) :
    stripParens (T ++ R) = .ok (T ++ R) := by
  cases hdata : T.data with
  | nil => exact absurd hdata (data_ne_nil hT)
  | cons x xs =>
    have hx : x ≠ '(' := by
      intro e
      exact hs.not_mem (show '(' ∈ SEPARATORS by decide) (by rw [hdata, e]; simp)
    exact stripParens_plain (show (T ++ R).data = x :: (xs ++ R.data) by
      simp [String.data_append, hdata]) hx

theorem substr_error {s : String} {pos n : Nat} {e : Err}
    (h : substr s pos n = .error e) : e = .outOfRange := by
  unfold substr at h
  split at h <;> simp at h
  exact h.symm

theorem substrFrom_error {s : String} {pos : Nat} {e : Err}
    (h : substrFrom s pos = .error e) : e = .outOfRange := by
  unfold substrFrom at h
  split at h <;> simp at h
  exact h.symm

theorem stripParens_error {s : String} {e : Err}
    (h : stripParens s = .error e) : e = .outOfRange ∨ e = .emptyString := by
  unfold stripParens at h
  split at h
  · split at h
    · exact Or.inl (substr_error h)
    · simp at h
  · simp at h; exact Or.inr h.symm

theorem splitFkSpec_error {s : String} {e : Err}
    (h : splitFkSpec s = .error e) : e = .outOfRange ∨ e = .invalidFkFormat := by
  unfold splitFkSpec at h
  split at h
  · split at h
    · simp at h
    · simp at h; subst h; exact Or.inl (substr_error ‹_›)
    · simp at h; subst h; exact Or.inl (substrFrom_error ‹_›)
  · split at h
    · split at h
      · simp at h
      · simp at h; subst h; exact Or.inl (substr_error ‹_›)
      · simp at h; subst h; exact Or.inl (substr_error ‹_›)
    · simp only at h
      split at h
      · simp at h; exact Or.inr h.symm
      · split at h
        · simp at h
        · simp at h; subst h; exact Or.inl (substr_error ‹_›)
        · simp at h; subst h; exact Or.inl (substrFrom_error ‹_›)

/-- The errors of the FK spec are the format error, the range error of
`substr` and the empty operand. -/
theorem parseFkSpec_error {s : String} {e : Err} (h : parseFkSpec s = .error e) :
    e = .outOfRange ∨ e = .emptyString ∨ e = .invalidFkFormat := by
  unfold parseFkSpec at h
  split at h
  · simp at h; subst h
    rcases stripParens_error ‹_› with h | h
    · exact Or.inl h
    · exact Or.inr (Or.inl h)
  · rcases splitFkSpec_error h with h | h
    · exact Or.inl h
    · exact Or.inr (Or.inr h)

/-! ## One iteration of the modifier loop -/

theorem modifierStep_end {fields : List String} {st : ColState}
    (h : fields[st.i]? = none) : modifierStep fields st = none := by
  simp [modifierStep, h]

theorem modifierStep_stop {fields : List String} {st : ColState} {tok : String}
    (h : fields[st.i]? = some tok) (hn : tok ∉ FIELD_MODIFIERS) :
    modifierStep fields st = none := by
  simp [modifierStep, h, hn]

theorem modifierStep_plain {fields : List String} {st : ColState} {mod : String}
    (h : fields[st.i]? = some mod) (hm : mod ∈ PLAIN_MODIFIERS ∨ mod = "--default") :
    modifierStep fields st =
      some (.ok { st with i := st.i + 1, modifiers := st.modifiers ++ [mod] }) := by
  simp only [PLAIN_MODIFIERS, List.mem_cons, List.mem_singleton, List.not_mem_nil, or_false] at hm
  rcases hm with (hm | hm | hm | hm) | hm <;> subst hm <;>
    simp [modifierStep, h, FIELD_MODIFIERS]

theorem modifierStep_fk {fields : List String} {st : ColState}
    (h : fields[st.i]? = some "--fk") :
    modifierStep fields st =
      match fields[st.i + 1]? with
      | none => some (.error .missingFkSpec)
      | some fk_spec =>
        match parseFkSpec fk_spec with
        | .error e => some (.error e)
        | .ok (t, c) => some (.ok { st with i := st.i + 2, fk_table := t, fk_column := c }) := by
  simp [modifierStep, h, FIELD_MODIFIERS]

theorem modifierStep_ondelete {fields : List String} {st : ColState}
    (h : fields[st.i]? = some "--ondelete") :
    modifierStep fields st =
      match fields[st.i + 1]? with
      | none => some (.error (.missingAction "--ondelete"))
      | some action =>
        if action ∉ FK_ACTIONS then some (.error (.invalidFkAction action))
        else some (.ok { st with i := st.i + 2, on_delete := action }) := by
  simp [modifierStep, h, FIELD_MODIFIERS]

theorem modifierStep_onupdate {fields : List String} {st : ColState}
    (h : fields[st.i]? = some "--onupdate") :
    modifierStep fields st =
      match fields[st.i + 1]? with
      | none => some (.error (.missingAction "--onupdate"))
      | some action =>
        if action ∉ FK_ACTIONS then some (.error (.invalidFkAction action))
        else some (.ok { st with i := st.i + 2, on_update := action }) := by
  simp [modifierStep, h, FIELD_MODIFIERS]

/-- The modifier loop over a run of operand-free modifiers that ends at the
end of the input or before a token that is no modifier. -/
theorem modifierLoop_plain (fields : List String) :
    ∀ (mods : List String) (st : ColState) (rest : List String),
      fields.drop st.i = mods ++ rest →
      (∀ m ∈ mods, m ∈ PLAIN_MODIFIERS ∨ m = "--default") →
      (∀ r, rest.head? = some r → r ∉ FIELD_MODIFIERS) →
      modifierLoop fields (fields.length + 1) st =
        .ok { st with i := st.i + mods.length, modifiers := st.modifiers ++ mods } := by
  intro mods
  induction mods with
  | nil =>
    intro st rest hd _ hr
    simp only [List.nil_append] at hd
    simp only [List.length_nil, Nat.add_zero, List.append_nil]
    cases rest with
    | nil => exact modifierLoop_done (modifierStep_end (drop_nil hd))
    | cons r tl =>
      exact modifierLoop_done (modifierStep_stop (drop_cons hd).1 (hr r rfl))
  | cons m mods ih =>
    intro st rest hd hm hr
    have hc := drop_cons (show fields.drop st.i = m :: (mods ++ rest) from hd)
    have hstep := @modifierStep_plain fields st m hc.1 (hm m (List.mem_cons_self _ _))
    rw [modifierLoop_step hstep]
    rw [ih _ rest (by simpa using hc.2) (fun x hx => hm x (List.mem_cons_of_mem _ hx)) hr]
    simp [Nat.add_assoc, Nat.add_comm 1]

/-- The modifier loop over `--fk`, `--ondelete` and `--onupdate` groups, each
kind with one operand throughout. -/
theorem modifierLoop_groups (fields : List String) {spec A B T C : String}
    (hparse : parseFkSpec spec = .ok (T, C)) (hA : A ∈ FK_ACTIONS) (hB : B ∈ FK_ACTIONS) :
    ∀ (gs : List (List String)) (st : ColState) (rest : List String),
      fields.drop st.i = gs.flatten ++ rest →
      (∀ g ∈ gs, g = ["--fk", spec] ∨ g = ["--ondelete", A] ∨ g = ["--onupdate", B]) →
      (∀ r, rest.head? = some r → r ∉ FIELD_MODIFIERS) →
      modifierLoop fields (fields.length + 1) st =
        .ok { i := st.i + gs.flatten.length,
              modifiers := st.modifiers,
              fk_table := if ["--fk", spec] ∈ gs then T else st.fk_table,
              fk_column := if ["--fk", spec] ∈ gs then C else st.fk_column,
              on_delete := if ["--ondelete", A] ∈ gs then A else st.on_delete,
              on_update := if ["--onupdate", B] ∈ gs then B else st.on_update } := by
  intro gs
  induction gs with
  | nil =>
    intro st rest hd _ hr
    simp only [List.flatten_nil, List.nil_append] at hd
    simp only [List.flatten_nil, List.length_nil, Nat.add_zero, List.not_mem_nil, if_false]
    cases rest with
    | nil => exact modifierLoop_done (modifierStep_end (drop_nil hd))
    | cons r tl =>
      exact modifierLoop_done (modifierStep_stop (drop_cons hd).1 (hr r rfl))
  | cons g gs ih =>
    intro st rest hd hg hr
    have hrest : ∀ x ∈ gs, x = ["--fk", spec] ∨ x = ["--ondelete", A] ∨ x = ["--onupdate", B] :=
      fun x hx => hg x (List.mem_cons_of_mem _ hx)
    rcases hg g (List.mem_cons_self _ _) with h | h | h <;> subst h
    · have h1 := drop_cons (show fields.drop st.i = "--fk" :: spec :: (gs.flatten ++ rest) by
        simpa using hd)
      have h2 := drop_cons h1.2
      have hstep : modifierStep fields st =
          some (.ok { st with i := st.i + 2, fk_table := T, fk_column := C }) := by
        rw [modifierStep_fk h1.1, h2.1]; simp only [hparse]
      rw [modifierLoop_step hstep, ih _ rest (by simpa using h2.2) hrest hr]
      simp [Nat.add_assoc, Nat.add_comm 2]
    · have h1 := drop_cons (show fields.drop st.i = "--ondelete" :: A :: (gs.flatten ++ rest) by
        simpa using hd)
      have h2 := drop_cons h1.2
      have hstep : modifierStep fields st =
          some (.ok { st with i := st.i + 2, on_delete := A }) := by
        rw [modifierStep_ondelete h1.1, h2.1]; simp [hA]
      rw [modifierLoop_step hstep, ih _ rest (by simpa using h2.2) hrest hr]
      simp [Nat.add_assoc, Nat.add_comm 2]
    · have h1 := drop_cons (show fields.drop st.i = "--onupdate" :: B :: (gs.flatten ++ rest) by
        simpa using hd)
      have h2 := drop_cons h1.2
      have hstep : modifierStep fields st =
          some (.ok { st with i := st.i + 2, on_update := B }) := by
        rw [modifierStep_onupdate h1.1, h2.1]; simp [hB]
      rw [modifierLoop_step hstep, ih _ rest (by simpa using h2.2) hrest hr]
      simp [Nat.add_assoc, Nat.add_comm 2]

/-! ## One iteration of the column loop -/

theorem applyModifiers_clauses (fields : List String) (i : Nat) :
    ∀ (mods : List String) (column_def : String),
      (∀ m ∈ mods, m ∈ PLAIN_MODIFIERS ∨ (m = "--default" ∧ fields[i]? = none)) →
      applyModifiers fields mods column_def i = (column_def ++ clauses mods, i) := by
  intro mods
  induction mods with
  | nil => intro cd _; simp [applyModifiers, clauses]
  | cons m mods ih =>
    intro cd hm
    have hrest : ∀ x ∈ mods, x ∈ PLAIN_MODIFIERS ∨ (x = "--default" ∧ fields[i]? = none) :=
      fun x hx => hm x (List.mem_cons_of_mem _ hx)
    have h := hm m (List.mem_cons_self _ _)
    simp only [PLAIN_MODIFIERS, List.mem_cons, List.mem_singleton, List.not_mem_nil,
      or_false] at h
    rcases h with (h | h | h | h) | ⟨h, hnone⟩ <;> subst h
    · simp [applyModifiers, clauses, modifierClause, ih _ hrest, String.append_assoc]
    · simp [applyModifiers, clauses, modifierClause, ih _ hrest, String.append_assoc]
    · simp [applyModifiers, clauses, modifierClause, ih _ hrest, String.append_assoc]
    · simp [applyModifiers, clauses, modifierClause, ih _ hrest, String.append_assoc]
    · simp [applyModifiers, clauses, modifierClause, ih _ hrest, hnone]

theorem columnStep_ok {fields : List String} {s : LoopState} {ty name : String} {st : ColState}
    (hty : fields[s.i]? = some ty) (hmem : ty ∈ FIELD_TYPES)
    (hname : fields[s.i + 1]? = some name)
    (hloop : modifierLoop fields (fields.length + 1) (ColState.init (s.i + 2)) = .ok st) :
    columnStep fields s = some (.ok
      { i := (applyModifiers fields st.modifiers
                ("  " ++ name ++ " " ++ sqliteType (declaredType ty)) st.i).2,
        columns := s.columns ++ [(applyModifiers fields st.modifiers
                ("  " ++ name ++ " " ++ sqliteType (declaredType ty)) st.i).1],
        constraints := match fkConstraint name st with
          | some c => s.constraints ++ [c]
          | none => s.constraints }) := by
  simp [columnStep, hty, hmem, substr_type hmem, hname, hloop]

theorem columnStep_modifierError {fields : List String} {s : LoopState} {ty name : String}
    {e : Err} (hty : fields[s.i]? = some ty) (hmem : ty ∈ FIELD_TYPES)
    (hname : fields[s.i + 1]? = some name)
    (hloop : modifierLoop fields (fields.length + 1) (ColState.init (s.i + 2)) = .error e) :
    columnStep fields s = some (.error e) := by
  simp [columnStep, hty, hmem, substr_type hmem, hname, hloop]

theorem columnStep_end {fields : List String} {s : LoopState}
    (h : fields[s.i]? = none) : columnStep fields s = none := by
  simp [columnStep, h]

/-- A column whose modifiers carry no operand, at any place of the input. -/
theorem columnStep_plain {fields : List String} {s : LoopState} {ty name : String}
    {mods rest : List String}
    (hd : fields.drop s.i = ty :: name :: (mods ++ rest)) (hmem : ty ∈ FIELD_TYPES)
    (hm : ∀ m ∈ mods, m ∈ PLAIN_MODIFIERS)
    (hr : ∀ r, rest.head? = some r → r ∉ FIELD_MODIFIERS) :
    columnStep fields s = some (.ok
      { i := s.i + 2 + mods.length,
        columns := s.columns ++
          ["  " ++ name ++ " " ++ sqliteType (declaredType ty) ++ clauses mods],
        constraints := s.constraints }) := by
  have h1 := drop_cons hd
  have h2 := drop_cons h1.2
  have hloop := modifierLoop_plain fields mods (ColState.init (s.i + 2)) rest
    (by simpa [ColState.init] using h2.2) (fun m h => Or.inl (hm m h)) hr
  rw [columnStep_ok h1.1 hmem h2.1 hloop]
  simp only [ColState.init, List.nil_append]
  rw [applyModifiers_clauses fields _ mods _ (fun m h => Or.inl (hm m h))]
  simp [fkConstraint]

theorem action_ne_empty {A : String} (h : A ∈ FK_ACTIONS) : A ≠ "" := by
  simp only [FK_ACTIONS, List.mem_cons, List.mem_singleton, List.not_mem_nil, or_false] at h
  rcases h with h | h | h | h | h <;> subst h <;> decide

/-- A column whose modifiers are one `--fk` and at most one `--ondelete` and
one `--onupdate`, in any order, at any place of the input. -/
theorem columnStep_fkColumn {fields : List String} {s : LoopState}
    {ty name spec T C : String} {gs : List (List String)} {rest : List String}
    (oA oB : Option String)
    (hd : fields.drop s.i = ty :: name :: (gs.flatten ++ rest)) (hmem : ty ∈ FIELD_TYPES)
    (hparse : parseFkSpec spec = .ok (T, C)) (hT : T ≠ "")
    (hA : ∀ A, oA = some A → A ∈ FK_ACTIONS) (hB : ∀ B, oB = some B → B ∈ FK_ACTIONS)
    (hperm : gs.Perm (["--fk", spec] ::
      (actionTokens "--ondelete" oA ++ actionTokens "--onupdate" oB)))
    (hr : ∀ r, rest.head? = some r → r ∉ FIELD_MODIFIERS) :
    columnStep fields s = some (.ok
      { i := s.i + 2 + gs.flatten.length,
        columns := s.columns ++ ["  " ++ name ++ " " ++ sqliteType (declaredType ty)],
        constraints := s.constraints ++
          ["FOREIGN KEY(" ++ name ++ ") REFERENCES " ++ T ++ "(" ++ C ++ ")" ++
            actionClause "ON DELETE" oA ++ actionClause "ON UPDATE" oB] }) := by
  have h1 := drop_cons hd
  have h2 := drop_cons h1.2
  have hc : (ColState.init (s.i + 2)).i = s.i + 2 := rfl
  cases oA with
  | none =>
    cases oB with
    | none =>
      have hloop := modifierLoop_groups fields hparse (show "cascade" ∈ FK_ACTIONS by decide)
        (show "cascade" ∈ FK_ACTIONS by decide) gs (ColState.init (s.i + 2)) rest
        (by rw [hc]; exact h2.2)
        (fun g hg => by
          have := (hperm.mem_iff).mp hg
          simp [actionTokens] at this; exact Or.inl this) hr
      rw [columnStep_ok h1.1 hmem h2.1 hloop]
      have m1 : ["--fk", spec] ∈ gs := hperm.mem_iff.mpr (by simp)
      have m2 : ["--ondelete", "cascade"] ∉ gs := fun h => by
        have := hperm.mem_iff.mp h; simp [actionTokens] at this
      have m3 : ["--onupdate", "cascade"] ∉ gs := fun h => by
        have := hperm.mem_iff.mp h; simp [actionTokens] at this
      simp [ColState.init, applyModifiers, fkConstraint, m1, m2, m3, hT, actionClause,
        String.append_assoc]
    | some B =>
      have hB' := hB B rfl
      have hloop := modifierLoop_groups fields hparse (show "cascade" ∈ FK_ACTIONS by decide)
        hB' gs (ColState.init (s.i + 2)) rest (by rw [hc]; exact h2.2)
        (fun g hg => by
          have := (hperm.mem_iff).mp hg
          simp [actionTokens] at this
          rcases this with h | h
          · exact Or.inl h
          · exact Or.inr (Or.inr h)) hr
      rw [columnStep_ok h1.1 hmem h2.1 hloop]
      have m1 : ["--fk", spec] ∈ gs := hperm.mem_iff.mpr (by simp)
      have m2 : ["--ondelete", "cascade"] ∉ gs := fun h => by
        have := hperm.mem_iff.mp h; simp [actionTokens] at this
      have m3 : ["--onupdate", B] ∈ gs := hperm.mem_iff.mpr (by simp [actionTokens])
      simp [ColState.init, applyModifiers, fkConstraint, m1, m2, m3, hT, actionClause,
        action_ne_empty hB', String.append_assoc]
      simp [String.ext_iff, String.data_append]
  | some A =>
    have hA' := hA A rfl
    cases oB with
    | none =>
      have hloop := modifierLoop_groups fields hparse hA'
        (show "cascade" ∈ FK_ACTIONS by decide) gs (ColState.init (s.i + 2)) rest
        (by rw [hc]; exact h2.2)
        (fun g hg => by
          have := (hperm.mem_iff).mp hg
          simp [actionTokens] at this
          rcases this with h | h
          · exact Or.inl h
          · exact Or.inr (Or.inl h)) hr
      rw [columnStep_ok h1.1 hmem h2.1 hloop]
      have m1 : ["--fk", spec] ∈ gs := hperm.mem_iff.mpr (by simp)
      have m2 : ["--ondelete", A] ∈ gs := hperm.mem_iff.mpr (by simp [actionTokens])
      have m3 : ["--onupdate", "cascade"] ∉ gs := fun h => by
        have := hperm.mem_iff.mp h; simp [actionTokens] at this
      simp [ColState.init, applyModifiers, fkConstraint, m1, m2, m3, hT, actionClause,
        action_ne_empty hA', String.append_assoc]
      simp [String.ext_iff, String.data_append]
    | some B =>
      have hB' := hB B rfl
      have hloop := modifierLoop_groups fields hparse hA' hB' gs (ColState.init (s.i + 2)) rest
        (by rw [hc]; exact h2.2)
        (fun g hg => by
          have := (hperm.mem_iff).mp hg
          simp [actionTokens] at this
          rcases this with h | h | h
          · exact Or.inl h
          · exact Or.inr (Or.inl h)
          · exact Or.inr (Or.inr h)) hr
      rw [columnStep_ok h1.1 hmem h2.1 hloop]
      have m1 : ["--fk", spec] ∈ gs := hperm.mem_iff.mpr (by simp)
      have m2 : ["--ondelete", A] ∈ gs := hperm.mem_iff.mpr (by simp [actionTokens])
      have m3 : ["--onupdate", B] ∈ gs := hperm.mem_iff.mpr (by simp [actionTokens])
      simp [ColState.init, applyModifiers, fkConstraint, m1, m2, m3, hT, actionClause,
        action_ne_empty hA', action_ne_empty hB', String.append_assoc]
      simp [String.ext_iff, String.data_append]

/-- Every spelling of an FK target is read as that target. -/
theorem parseFkSpec_forms {T C : String} (hT : T ≠ "") (hTs : NoSeparator T)
    (hCs : NoSeparator C) : ∀ spec ∈ fkForms T C, parseFkSpec spec = .ok (T, C) := by
  intro spec hspec
  simp only [fkForms, List.mem_cons, List.mem_singleton, List.not_mem_nil, or_false] at hspec
  rcases hspec with h | h | h | h | h | h | h | h <;> subst h
  · have := @stripParens_table T ("(" ++ C ++ ")") hT hTs
    simp only [← String.append_assoc] at this
    simp only [parseFkSpec, this, splitFkSpec_paren hTs hCs]
  · have := @stripParens_table T ("." ++ C) hT hTs
    simp only [← String.append_assoc] at this
    simp only [parseFkSpec, this, splitFkSpec_dot (hTs.not_mem (by decide))]
  · have := @stripParens_table T ("," ++ C) hT hTs
    simp only [← String.append_assoc] at this
    simp only [parseFkSpec, this, splitFkSpec_comma hTs hCs]
  · have := @stripParens_table T (" " ++ C) hT hTs
    simp only [← String.append_assoc] at this
    simp only [parseFkSpec, this, splitFkSpec_space hTs hCs]
  · simp only [parseFkSpec, stripParens_wrapped, splitFkSpec_paren hTs hCs]
  · simp only [parseFkSpec, stripParens_wrapped, splitFkSpec_dot (hTs.not_mem (by decide))]
  · simp only [parseFkSpec, stripParens_wrapped, splitFkSpec_comma hTs hCs]
  · simp only [parseFkSpec, stripParens_wrapped, splitFkSpec_space hTs hCs]

/-! ## From the loops to the statement -/

theorem build_of_loop {table_name : String} {fields : List String} {s : LoopState}
    (h : columnLoop fields (fields.length + 1) LoopState.start = .ok s) :
    build_create_table_sql table_name fields =
      .ok (emitConstraints s.constraints
            (emitColumns s.constraints s.columns ("CREATE TABLE " ++ table_name ++ " (\n"))
          ++ "\n);") := by
  simp only [LoopState.start] at h
  simp [build_create_table_sql, h]

theorem build_of_loop_error {table_name : String} {fields : List String} {e : Err}
    (h : columnLoop fields (fields.length + 1) LoopState.start = .error e) :
    build_create_table_sql table_name fields = .error e := by
  simp only [LoopState.start] at h
  simp [build_create_table_sql, h]

theorem columnLoop_of_reach {fields : List String} {s : LoopState}
    (h : ColumnReach fields s) :
    columnLoop fields (fields.length + 1) LoopState.start =
      columnLoop fields (fields.length + 1) s := by
  induction h with
  | start => rfl
  | step _ hstep ih => rw [ih, columnLoop_step hstep]

theorem modifierLoop_of_reach {fields : List String} {i0 : Nat} {st : ColState}
    (h : ModifierReach fields i0 st) :
    modifierLoop fields (fields.length + 1) (ColState.init i0) =
      modifierLoop fields (fields.length + 1) st := by
  induction h with
  | start => rfl
  | step _ hstep ih => rw [ih, modifierLoop_step hstep]

/-- An error of the modifier loop at a modifier that the run reads is the
result of the translation. -/
theorem build_error_at_modifier {table_name : String} {fields : List String} {st : ColState}
    {e : Err} (h : AtModifier fields st) (hstep : modifierStep fields st = some (.error e)) :
    build_create_table_sql table_name fields = .error e := by
  obtain ⟨s, ty, name, hreach, hty, hmem, hname, hmod⟩ := h
  have hloop : modifierLoop fields (fields.length + 1) (ColState.init (s.i + 2)) = .error e :=
    (modifierLoop_of_reach hmod).trans (modifierLoop_error hstep)
  have hcol := columnStep_modifierError hty hmem hname hloop
  exact build_of_loop_error ((columnLoop_of_reach hreach).trans (columnLoop_error hcol))

/-- A table of one column: the first iteration of the column loop consumes
the whole input. -/
theorem build_single {table_name : String} {fields : List String} {s : LoopState}
    (hstep : columnStep fields LoopState.start = some (.ok s)) (hend : fields.length ≤ s.i) :
    build_create_table_sql table_name fields =
      .ok (emitConstraints s.constraints
            (emitColumns s.constraints s.columns ("CREATE TABLE " ++ table_name ++ " (\n"))
          ++ "\n);") := by
  have hnone : columnStep fields s = none :=
    columnStep_end (List.getElem?_eq_none_iff.mpr hend)
  exact build_of_loop ((columnLoop_step hstep).trans (columnLoop_done hnone))

theorem clauses_append (a b : List String) : clauses (a ++ b) = clauses a ++ clauses b := by
  induction a with
  | nil => simp [clauses]
  | cons x a ih => simp [clauses, ih, String.append_assoc]

theorem columnLoop_last {fields : List String} {s s' : LoopState}
    (hstep : columnStep fields s = some (.ok s')) (hend : fields.length ≤ s'.i) :
    columnLoop fields (fields.length + 1) s = .ok s' :=
  (columnLoop_step hstep).trans
    (columnLoop_done (columnStep_end (List.getElem?_eq_none_iff.mpr hend)))

/-! ## Where the invalid-action error comes from -/

theorem modifierStep_invalidAction {fields : List String} {st : ColState} {X : String}
    (h : modifierStep fields st = some (.error (.invalidFkAction X))) : X ∉ FK_ACTIONS := by
  unfold modifierStep at h
  split at h
  · simp at h
  · split at h
    · simp at h
    · split at h
      · split at h
        · simp at h
        · split at h
          · rename_i e he
            simp at h; subst h
            rcases parseFkSpec_error he with h | h | h <;> simp at h
          · simp at h
      · split at h
        · split at h
          · simp at h
          · split at h
            · simp at h; subst h; assumption
            · simp at h
        · split at h
          · split at h
            · simp at h
            · split at h
              · simp at h; subst h; assumption
              · simp at h
          · simp at h

theorem modifierLoop_invalidAction (fields : List String) {X : String} :
    ∀ (fuel : Nat) (st : ColState),
      modifierLoop fields fuel st = .error (.invalidFkAction X) → X ∉ FK_ACTIONS := by
  intro fuel
  induction fuel with
  | zero => intro st h; simp [modifierLoop] at h
  | succ fuel ih =>
    intro st h
    simp only [modifierLoop] at h
    cases hstep : modifierStep fields st with
    | none => rw [hstep] at h; simp at h
    | some r =>
      cases r with
      | error e =>
        rw [hstep] at h; simp at h; subst h
        exact modifierStep_invalidAction hstep
      | ok st' => rw [hstep] at h; exact ih st' h

theorem columnStep_invalidAction {fields : List String} {s : LoopState} {X : String}
    (h : columnStep fields s = some (.error (.invalidFkAction X))) : X ∉ FK_ACTIONS := by
  unfold columnStep at h
  split at h
  · simp at h
  · split at h
    · simp at h
    · split at h
      · rename_i e he
        simp at h; subst h
        have := substrFrom_error he
        simp at this
      · split at h
        · simp at h
        · split at h
          · rename_i e he
            simp at h; subst h
            exact modifierLoop_invalidAction fields _ _ he
          · simp at h

theorem columnLoop_invalidAction (fields : List String) {X : String} :
    ∀ (fuel : Nat) (s : LoopState),
      columnLoop fields fuel s = .error (.invalidFkAction X) → X ∉ FK_ACTIONS := by
  intro fuel
  induction fuel with
  | zero => intro s h; simp [columnLoop] at h
  | succ fuel ih =>
    intro s h
    simp only [columnLoop] at h
    cases hstep : columnStep fields s with
    | none => rw [hstep] at h; simp at h
    | some r =>
      cases r with
      | error e =>
        rw [hstep] at h; simp at h; subst h
        exact columnStep_invalidAction hstep
      | ok s' => rw [hstep] at h; exact ih s' h

/-- The invalid-action error carries an action outside `FK_ACTIONS`. -/
theorem build_invalidAction {table_name : String} {fields : List String} {X : String}
    (h : build_create_table_sql table_name fields = .error (.invalidFkAction X)) :
    X ∉ FK_ACTIONS := by
  unfold build_create_table_sql at h
  simp only at h
  split at h
  · rename_i e he
    simp at h; subst h
    exact columnLoop_invalidAction fields _ _ he
  · simp at h

/-! ## Assembly -/

theorem joinLines_cons {line : String} {rest : List String} (h : rest ≠ []) :
    joinLines (line :: rest) = line ++ ",\n" ++ joinLines rest := by
  cases rest with
  | nil => exact absurd rfl h
  | cons x xs => rfl

theorem joinLines_append {a b : List String} (ha : a ≠ []) (hb : b ≠ []) :
    joinLines (a ++ b) = joinLines a ++ ",\n" ++ joinLines b := by
  induction a with
  | nil => exact absurd rfl ha
  | cons x a ih =>
    cases a with
    | nil => simp [joinLines_cons hb, joinLines]
    | cons y ys =>
      have h1 : (y :: ys) ++ b ≠ [] := by simp
      have h2 : y :: ys ≠ [] := by simp
      rw [List.cons_append, joinLines_cons h1, ih h2, joinLines_cons h2]
      simp [String.append_assoc]

theorem emitConstraints_eq :
    ∀ (constraints : List String) (sql : String),
      emitConstraints constraints sql =
        sql ++ joinLines (constraints.map fun c => "  " ++ c) := by
  intro constraints
  induction constraints with
  | nil => intro sql; simp [emitConstraints, joinLines]
  | cons c rest ih =>
    intro sql
    cases rest with
    | nil => simp [emitConstraints, joinLines, String.append_assoc]
    | cons d ds =>
      have h : (d :: ds).map (fun c => "  " ++ c) ≠ [] := by simp
      have e : emitConstraints (c :: d :: ds) sql =
          emitConstraints (d :: ds) (sql ++ "  " ++ c ++ ",\n") := by
        simp [emitConstraints]
      rw [List.map_cons, joinLines_cons h, e, ih]
      simp [String.append_assoc]

theorem emitColumns_eq (constraints : List String) :
    ∀ (columns : List String) (sql : String),
      emitColumns constraints columns sql =
        sql ++ joinLines columns ++
          (if columns ≠ [] ∧ constraints ≠ [] then ",\n" else "") := by
  intro columns
  induction columns with
  | nil => intro sql; simp [emitColumns, joinLines]
  | cons c rest ih =>
    intro sql
    cases rest with
    | nil =>
      by_cases hc : constraints = []
      · simp [emitColumns, joinLines, hc]
      · simp [emitColumns, joinLines, hc, String.append_assoc]
    | cons d ds =>
      have h : d :: ds ≠ [] := by simp
      have e : emitColumns constraints (c :: d :: ds) sql =
          emitColumns constraints (d :: ds) (sql ++ c ++ ",\n") := by
        simp [emitColumns]
      rw [joinLines_cons h, e, ih]
      simp [String.append_assoc]

/-- Lines 199-211 write the columns and the indented constraints as one list
of lines. -/
theorem emit_eq (columns constraints : List String) (sql : String) :
    emitConstraints constraints (emitColumns constraints columns sql) =
      sql ++ joinLines (columns ++ constraints.map fun c => "  " ++ c) := by
  rw [emitConstraints_eq, emitColumns_eq]
  by_cases hc : columns = []
  · subst hc; simp [joinLines]
  · by_cases hk : constraints = []
    · subst hk; simp [joinLines]
    · have hk' : (constraints.map fun c => "  " ++ c) ≠ [] := by simpa using hk
      rw [joinLines_append hc hk']
      simp [hc, hk, String.append_assoc]

theorem applyModifiers_extends (fields : List String) :
    ∀ (mods : List String) (column_def : String) (i : Nat),
      ∃ tail, (applyModifiers fields mods column_def i).1 = column_def ++ tail := by
  intro mods
  induction mods with
  | nil => intro cd i; exact ⟨"", by simp [applyModifiers]⟩
  | cons m rest ih =>
    intro cd i
    simp only [applyModifiers]
    split
    · obtain ⟨t, ht⟩ := ih (cd ++ " PRIMARY KEY") i
      exact ⟨" PRIMARY KEY" ++ t, by rw [ht, String.append_assoc]⟩
    · split
      · obtain ⟨t, ht⟩ := ih (cd ++ " AUTOINCREMENT") i
        exact ⟨" AUTOINCREMENT" ++ t, by rw [ht, String.append_assoc]⟩
      · split
        · obtain ⟨t, ht⟩ := ih (cd ++ " NOT NULL") i
          exact ⟨" NOT NULL" ++ t, by rw [ht, String.append_assoc]⟩
        · split
          · obtain ⟨t, ht⟩ := ih (cd ++ " UNIQUE") i
            exact ⟨" UNIQUE" ++ t, by rw [ht, String.append_assoc]⟩
          · split
            · split
              · rename_i lit _
                obtain ⟨t, ht⟩ := ih (cd ++ " DEFAULT " ++ lit) (i + 1)
                exact ⟨" DEFAULT " ++ lit ++ t, by rw [ht]; simp [String.append_assoc]⟩
              · exact ih _ _
            · exact ih _ _

/-- What an iteration of the column loop that goes through does. -/
theorem columnStep_appends {fields : List String} {s s' : LoopState}
    (h : columnStep fields s = some (.ok s')) :
    ∃ (ty name : String) (st : ColState),
      fields[s.i]? = some ty ∧ ty ∈ FIELD_TYPES ∧ fields[s.i + 1]? = some name ∧
      modifierLoop fields (fields.length + 1) (ColState.init (s.i + 2)) = .ok st ∧
      s'.columns = s.columns ++ [columnDef fields ty name st] ∧
      s'.constraints = s.constraints ++ (fkConstraint name st).toList := by
  have h0 := h
  unfold columnStep at h
  split at h
  · simp at h
  · rename_i ty hty
    split at h
    · simp at h
    · rename_i hmem
      simp only [not_not] at hmem
      split at h
      · simp at h
      · split at h
        · simp at h
        · rename_i name hname
          split at h
          · simp at h
          · rename_i st hst
            refine ⟨ty, name, st, hty, hmem, hname, hst, ?_⟩
            rw [columnStep_ok hty hmem hname hst] at h0
            simp at h0; subst h0
            refine ⟨rfl, ?_⟩
            cases fkConstraint name st <;> simp

theorem columnDef_indented (fields : List String) (ty name : String) (st : ColState) :
    ∃ body, columnDef fields ty name st = "  " ++ body := by
  obtain ⟨t, ht⟩ := applyModifiers_extends fields st.modifiers
    ("  " ++ name ++ " " ++ sqliteType (declaredType ty)) st.i
  exact ⟨name ++ " " ++ sqliteType (declaredType ty) ++ t, by
    rw [columnDef, ht]; simp [String.append_assoc]⟩

theorem columns_indented {fields : List String} {s : LoopState} (h : ColumnReach fields s) :
    ∀ c ∈ s.columns, ∃ body, c = "  " ++ body := by
  induction h with
  | start => intro c hc; simp [LoopState.start] at hc
  | step _ hstep ih =>
    obtain ⟨ty, name, st, _, _, _, _, hcols, _⟩ := columnStep_appends hstep
    intro c hc
    rw [hcols] at hc
    rcases List.mem_append.mp hc with hc | hc
    · exact ih c hc
    · simp at hc; subst hc; exact columnDef_indented fields ty name st

theorem columnLoop_final (fields : List String) :
    ∀ (fuel : Nat) (s0 s : LoopState),
      columnLoop fields fuel s0 = .ok s → columnStep fields s = none := by
  intro fuel
  induction fuel with
  | zero => intro s0 s h; simp [columnLoop] at h
  | succ fuel ih =>
    intro s0 s h
    simp only [columnLoop] at h
    cases hstep : columnStep fields s0 with
    | none => rw [hstep] at h; simp at h; subst h; exact hstep
    | some r =>
      cases r with
      | error e => rw [hstep] at h; simp at h
      | ok s1 => rw [hstep] at h; exact ih s1 s h

theorem columnLoop_reach (fields : List String) :
    ∀ (fuel : Nat) (s0 s : LoopState), ColumnReach fields s0 →
      columnLoop fields fuel s0 = .ok s → ColumnReach fields s := by
  intro fuel
  induction fuel with
  | zero => intro s0 s _ h; simp [columnLoop] at h
  | succ fuel ih =>
    intro s0 s hr h
    simp only [columnLoop] at h
    cases hstep : columnStep fields s0 with
    | none => rw [hstep] at h; simp at h; subst h; exact hr
    | some r =>
      cases r with
      | error e => rw [hstep] at h; simp at h
      | ok s1 => rw [hstep] at h; exact ih s1 s (ColumnReach.step hr hstep) h

/-! ## The modifiers that the loop collects -/

theorem modifierStep_modifiers {fields : List String} {st st' : ColState}
    (h : modifierStep fields st = some (.ok st')) :
    ∀ m ∈ st'.modifiers, m ∈ st.modifiers ∨ m ∈ PLAIN_MODIFIERS ∨ m = "--default" := by
  unfold modifierStep at h
  split at h
  · simp at h
  · rename_i mod hmod
    split at h
    · simp at h
    · rename_i hin
      split at h
      · split at h
        · simp at h
        · split at h
          · simp at h
          · simp at h; subst h; intro m hm; exact Or.inl hm
      · rename_i hfk
        split at h
        · split at h
          · simp at h
          · split at h
            · simp at h
            · simp at h; subst h; intro m hm; exact Or.inl hm
        · rename_i hod
          split at h
          · split at h
            · simp at h
            · split at h
              · simp at h
              · simp at h; subst h; intro m hm; exact Or.inl hm
          · rename_i hou
            simp at h; subst h
            intro m hm
            rcases List.mem_append.mp hm with hm | hm
            · exact Or.inl hm
            · simp at hm; subst hm
              simp only [not_not, FIELD_MODIFIERS, List.mem_cons, List.mem_singleton,
                List.not_mem_nil, or_false] at hin
              simp only [PLAIN_MODIFIERS, List.mem_cons, List.mem_singleton,
                List.not_mem_nil, or_false]
              rcases hin with h | h | h | h | h | h | h | h
              · exact Or.inr (Or.inl (Or.inl h))
              · exact Or.inr (Or.inl (Or.inr (Or.inl h)))
              · exact Or.inr (Or.inl (Or.inr (Or.inr (Or.inl h))))
              · exact Or.inr (Or.inl (Or.inr (Or.inr (Or.inr h))))
              · exact Or.inr (Or.inr h)
              · exact absurd h hfk
              · exact absurd h hod
              · exact absurd h hou

/-- The modifier loop collects `--pk`, `--ai`, `--notnull`, `--unique` and
`--default` only. -/
theorem modifierReach_modifiers {fields : List String} {i0 : Nat} {st : ColState}
    (h : ModifierReach fields i0 st) :
    ∀ m ∈ st.modifiers, m ∈ PLAIN_MODIFIERS ∨ m = "--default" := by
  induction h with
  | start => intro m hm; simp [ColState.init] at hm
  | step _ hstep ih =>
    intro m hm
    rcases modifierStep_modifiers hstep m hm with h | h | h
    · exact ih m h
    · exact Or.inl h
    · exact Or.inr h

/-! ## C1 -/

/-- C1, as the code has it: a column whose modifiers are drawn from `--pk`,
`--ai`, `--notnull`, `--unique` gets the definition `NAME <TYPE>` followed by
one clause per modifier token in the order of the tokens, at any place of the
input and as the only column of a table. -/
theorem c1_clauses_in_token_order (table_name ty name : String) (mods : List String)
    (hty : ty ∈ FIELD_TYPES) (hm : ∀ m ∈ mods, m ∈ PLAIN_MODIFIERS) :
    (∀ (fields : List String) (s : LoopState) (rest : List String),
      fields.drop s.i = ty :: name :: (mods ++ rest) →
      (∀ r, rest.head? = some r → r ∉ FIELD_MODIFIERS) →
      columnStep fields s = some (.ok
        { i := s.i + 2 + mods.length,
          columns := s.columns ++
            ["  " ++ name ++ " " ++ sqliteType (declaredType ty) ++ clauses mods],
          constraints := s.constraints })) ∧
    build_create_table_sql table_name (ty :: name :: mods) =
      .ok ("CREATE TABLE " ++ table_name ++ " (\n" ++
        ("  " ++ name ++ " " ++ sqliteType (declaredType ty) ++ clauses mods) ++ "\n);") := by
  refine ⟨fun fields s rest hd hr => columnStep_plain hd hty hm hr, ?_⟩
  have hstep := @columnStep_plain (ty :: name :: mods) LoopState.start ty name mods []
    (by simp [LoopState.start]) hty hm (by simp)
  have hend : columnStep (ty :: name :: mods)
      { i := LoopState.start.i + 2 + mods.length,
        columns := LoopState.start.columns ++
          ["  " ++ name ++ " " ++ sqliteType (declaredType ty) ++ clauses mods],
        constraints := LoopState.start.constraints } = none := by
    apply columnStep_end
    simp [LoopState.start]
    omega
  have hloop := (columnLoop_step hstep).trans (columnLoop_done hend)
  rw [build_of_loop hloop]
  simp [LoopState.start, emitColumns, emitConstraints, String.append_assoc]

/-- C1 at `--text code --unique --notnull`. -/
theorem c1_clauses_in_token_order_witness :
    build_create_table_sql "t" ["--text", "code", "--unique", "--notnull"] =
      .ok "CREATE TABLE t (\n  code TEXT UNIQUE NOT NULL\n);" :=
  (c1_clauses_in_token_order "t" "--text" "code" ["--unique", "--notnull"]
    (by decide) (by decide)).2

/-- C1 fails as stated: `--ai --pk` and `--pk --ai` give different column
definitions, the first one with AUTOINCREMENT before PRIMARY KEY. -/
theorem c1_counterexample :
    build_create_table_sql "t" ["--int", "id", "--ai", "--pk"] =
        .ok "CREATE TABLE t (\n  id INTEGER AUTOINCREMENT PRIMARY KEY\n);" ∧
      build_create_table_sql "t" ["--int", "id", "--pk", "--ai"] =
        .ok "CREATE TABLE t (\n  id INTEGER PRIMARY KEY AUTOINCREMENT\n);" ∧
      build_create_table_sql "t" ["--int", "id", "--ai", "--pk"] ≠
        build_create_table_sql "t" ["--int", "id", "--pk", "--ai"] := by
  have h1 : build_create_table_sql "t" ["--int", "id", "--ai", "--pk"] =
      .ok "CREATE TABLE t (\n  id INTEGER AUTOINCREMENT PRIMARY KEY\n);" := rfl
  have h2 : build_create_table_sql "t" ["--int", "id", "--pk", "--ai"] =
      .ok "CREATE TABLE t (\n  id INTEGER PRIMARY KEY AUTOINCREMENT\n);" := rfl
  refine ⟨h1, h2, ?_⟩
  rw [h1, h2]
  simp

/-! ## C2 -/

/-- C2, as the code has it: `--float N --notnull --default L`, the default
with its literal after the other modifier of the column, succeeds for every
name `N` and every literal `L` that is no modifier flag and yields the column
`N REAL NOT NULL DEFAULT L`. -/
theorem c2_default_last (table_name N L : String) (hL : L ∉ FIELD_MODIFIERS) :
    build_create_table_sql table_name ["--float", N, "--notnull", "--default", L] =
      .ok ("CREATE TABLE " ++ table_name ++ " (\n" ++
        ("  " ++ N ++ " REAL NOT NULL DEFAULT " ++ L) ++ "\n);") := by
  have hloop := modifierLoop_plain ["--float", N, "--notnull", "--default", L]
    ["--notnull", "--default"] (ColState.init 2) [L] (by simp [ColState.init])
    (by simp [PLAIN_MODIFIERS]) (by simpa using hL)
  have hstep := @columnStep_ok ["--float", N, "--notnull", "--default", L] LoopState.start
    "--float" N _ (by simp [LoopState.start]) (by decide) (by simp [LoopState.start])
    (by simpa [LoopState.start] using hloop)
  rw [build_single hstep (by simp [ColState.init, applyModifiers])]
  simp [ColState.init, applyModifiers, fkConstraint, LoopState.start, emitColumns,
    emitConstraints, sqliteType, declaredType, String.append_assoc]

/-- C2 at scenario S4 with the default moved behind `--notnull`. -/
theorem c2_default_last_witness :
    build_create_table_sql "t" ["--float", "price", "--notnull", "--default", "0.0"] =
      .ok "CREATE TABLE t (\n  price REAL NOT NULL DEFAULT 0.0\n);" :=
  c2_default_last "t" "price" "0.0" (by decide)

/-- C2 fails as stated: on scenario S4, `--float price --default 0.0 --notnull`,
the translation stops with the invalid-field-type error for `--notnull`. -/
theorem c2_counterexample :
    build_create_table_sql "t" ["--float", "price", "--default", "0.0", "--notnull"] =
      .error (.invalidFieldType "--notnull") := rfl

/-! ## C3 -/

/-- C3, as the code has it: when a column reads `--default` as a modifier
and that token is the last of the input, the translation raises no error and
returns SQL: the columns and constraints gathered before that column, the
column itself as `NAME <TYPE>` followed by the clauses of the `--pk`, `--ai`,
`--notnull`, `--unique` it has read, with no DEFAULT clause for any
`--default` of the column, and the constraint of the column if it has read
an `--fk`. -/
theorem c3_trailing_default_skipped (table_name : String) (fields : List String)
    (s : LoopState) (ty name : String) (st : ColState) (hreach : ColumnReach fields s)
    (hty : fields[s.i]? = some ty) (hmem : ty ∈ FIELD_TYPES)
    (hname : fields[s.i + 1]? = some name) (hmod : ModifierReach fields (s.i + 2) st)
    (hdef : fields[st.i]? = some "--default") (hlast : st.i + 1 = fields.length) :
    build_create_table_sql table_name fields =
      .ok ("CREATE TABLE " ++ table_name ++ " (\n" ++
        joinLines
          ((s.columns ++
              ["  " ++ name ++ " " ++ sqliteType (declaredType ty) ++ clauses st.modifiers]) ++
            (s.constraints ++ (fkConstraint name st).toList).map fun c => "  " ++ c) ++
        "\n);") := by
  have hstep := @modifierStep_plain fields st "--default" hdef (Or.inr rfl)
  have hend : fields[st.i + 1]? = none := List.getElem?_eq_none_iff.mpr (by omega)
  have hnone : modifierStep fields
      { st with i := st.i + 1, modifiers := st.modifiers ++ ["--default"] } = none :=
    modifierStep_end hend
  have hloop := (modifierLoop_of_reach hmod).trans
    ((modifierLoop_step hstep).trans (modifierLoop_done hnone))
  have hcol := columnStep_ok hty hmem hname hloop
  have happ := applyModifiers_clauses fields (st.i + 1) (st.modifiers ++ ["--default"])
    ("  " ++ name ++ " " ++ sqliteType (declaredType ty))
    (by
      intro m h
      rcases List.mem_append.mp h with h | h
      · rcases modifierReach_modifiers hmod m h with h | h
        · exact Or.inl h
        · exact Or.inr ⟨h, hend⟩
      · exact Or.inr ⟨by simpa using h, hend⟩)
  simp only at hcol
  rw [happ] at hcol
  have hfinal := (columnLoop_of_reach hreach).trans (columnLoop_last hcol (by simp; omega))
  rw [build_of_loop hfinal, emit_eq]
  have hfk : fkConstraint name
      { st with i := st.i + 1, modifiers := st.modifiers ++ ["--default"] } =
      fkConstraint name st := rfl
  rw [hfk]
  cases fkConstraint name st <;>
    simp [clauses_append, clauses, modifierClause, String.append_assoc]

/-- C3 at `--int id --pk --text n --notnull --default`. -/
theorem c3_trailing_default_skipped_witness :
    build_create_table_sql "t" ["--int", "id", "--pk", "--text", "n", "--notnull", "--default"] =
      .ok "CREATE TABLE t (\n  id INTEGER PRIMARY KEY,\n  n TEXT NOT NULL\n);" :=
  c3_trailing_default_skipped "t"
    ["--int", "id", "--pk", "--text", "n", "--notnull", "--default"]
    { i := 3, columns := ["  id INTEGER PRIMARY KEY"], constraints := [] } "--text" "n"
    { ColState.init 5 with i := 6, modifiers := ["--notnull"] }
    (ColumnReach.step ColumnReach.start rfl) rfl (by decide) rfl
    (ModifierReach.step ModifierReach.start rfl) rfl rfl

/-- C3 fails as stated: `--int n --default` returns SQL, with no DEFAULT
clause, and no missing-operand error. -/
theorem c3_counterexample :
    build_create_table_sql "t" ["--int", "n", "--default"] =
      .ok "CREATE TABLE t (\n  n INTEGER\n);" := rfl

/-! ## C4 -/

/-- C4: when a column reads `--fk`, `--ondelete` or `--onupdate` as a modifier
and that token is the last of the input, the translation fails with the
missing-operand error of that flag and returns no SQL. -/
theorem c4_missing_operand (table_name : String) (fields : List String) (st : ColState)
    (flag : String) (hat : AtModifier fields st) (hflag : fields[st.i]? = some flag)
    (hlast : st.i + 1 = fields.length)
    (hf : flag = "--fk" ∨ flag = "--ondelete" ∨ flag = "--onupdate") :
    build_create_table_sql table_name fields =
      .error (if flag = "--fk" then .missingFkSpec else .missingAction flag) := by
  have hnone : fields[st.i + 1]? = none := List.getElem?_eq_none_iff.mpr (by omega)
  apply build_error_at_modifier hat
  rcases hf with hf | hf | hf <;> subst hf
  · rw [modifierStep_fk hflag, hnone]; rfl
  · rw [modifierStep_ondelete hflag, hnone]; rfl
  · rw [modifierStep_onupdate hflag, hnone]; rfl

/-- C4 at `--int a --pk --ondelete`. -/
theorem c4_missing_operand_witness :
    build_create_table_sql "t" ["--int", "a", "--pk", "--ondelete"] =
      .error (.missingAction "--ondelete") :=
  c4_missing_operand "t" ["--int", "a", "--pk", "--ondelete"]
    { ColState.init 2 with i := 3, modifiers := ["--pk"] } "--ondelete"
    ⟨LoopState.start, "--int", "a", ColumnReach.start, rfl, by decide, rfl,
      ModifierReach.step ModifierReach.start rfl⟩ rfl rfl (Or.inr (Or.inl rfl))

/-! ## C5 -/

/-- C5 against the code: in `--int n --default 5 --notnull` the token after
the literal `5` is not read as a modifier, the translation fails on it with
the invalid-field-type error; and in `--int n --default --notnull 5` the token
right after `--default` is not taken as the literal, the literal is `5`. -/
theorem c5_default_operand_read_after_loop :
    build_create_table_sql "t" ["--int", "n", "--default", "5", "--notnull"] =
        .error (.invalidFieldType "--notnull") ∧
      build_create_table_sql "t" ["--int", "n", "--default", "--notnull", "5"] =
        .ok "CREATE TABLE t (\n  n INTEGER DEFAULT 5 NOT NULL\n);" :=
  ⟨rfl, rfl⟩

/-! ## C6 -/

/-- C6: for a table name `T` that is not empty and a column name `C`, both
free of `.`, `(`, `)`, `,` and the space, each of `T(C)`, `T.C`, `T,C`, `T C`
and of these four inside one pair of parentheses is read as the target
`(T, C)`, and a column with that `--fk` operand gets the one constraint
`FOREIGN KEY(name) REFERENCES T(C)`. -/
theorem c6_fk_forms_agree (table_name ty name T C : String) (hty : ty ∈ FIELD_TYPES)
    (hT : T ≠ "") (hTs : NoSeparator T) (hCs : NoSeparator C) :
    ∀ spec ∈ fkForms T C,
      parseFkSpec spec = .ok (T, C) ∧
      build_create_table_sql table_name [ty, name, "--fk", spec] =
        .ok ("CREATE TABLE " ++ table_name ++ " (\n" ++
          ("  " ++ name ++ " " ++ sqliteType (declaredType ty)) ++ ",\n" ++
          "  " ++ ("FOREIGN KEY(" ++ name ++ ") REFERENCES " ++ T ++ "(" ++ C ++ ")") ++
          "\n);") := by
  intro spec hspec
  have hparse := parseFkSpec_forms hT hTs hCs spec hspec
  refine ⟨hparse, ?_⟩
  have hstep := @columnStep_fkColumn [ty, name, "--fk", spec] LoopState.start ty name spec T C
    [["--fk", spec]] [] none none (by simp [LoopState.start]) hty hparse hT
    (by simp) (by simp) (by simp [actionTokens]) (by simp)
  rw [build_single hstep (by simp [LoopState.start])]
  simp [LoopState.start, emitColumns, emitConstraints, actionClause, String.append_assoc]

/-- C6 at scenario S3: `clients(id)`, `clients.id` and `clients,id` give the
same target and the same statement. -/
theorem c6_fk_forms_agree_witness :
    (parseFkSpec "clients(id)" = .ok ("clients", "id") ∧
      build_create_table_sql "orders" ["--int", "client_id", "--fk", "clients(id)"] =
        .ok "CREATE TABLE orders (\n  client_id INTEGER,\n  FOREIGN KEY(client_id) REFERENCES clients(id)\n);") ∧
    (parseFkSpec "clients.id" = .ok ("clients", "id") ∧
      build_create_table_sql "orders" ["--int", "client_id", "--fk", "clients.id"] =
        .ok "CREATE TABLE orders (\n  client_id INTEGER,\n  FOREIGN KEY(client_id) REFERENCES clients(id)\n);") ∧
    (parseFkSpec "clients,id" = .ok ("clients", "id") ∧
      build_create_table_sql "orders" ["--int", "client_id", "--fk", "clients,id"] =
        .ok "CREATE TABLE orders (\n  client_id INTEGER,\n  FOREIGN KEY(client_id) REFERENCES clients(id)\n);") :=
  ⟨c6_fk_forms_agree "orders" "--int" "client_id" "clients" "id" (by decide) (by decide)
      (by decide) (by decide) "clients(id)" (by decide),
    c6_fk_forms_agree "orders" "--int" "client_id" "clients" "id" (by decide) (by decide)
      (by decide) (by decide) "clients.id" (by decide),
    c6_fk_forms_agree "orders" "--int" "client_id" "clients" "id" (by decide) (by decide)
      (by decide) (by decide) "clients,id" (by decide)⟩

/-! ## C7 -/

/-- C7 against the code: the operand `t(cd`, an opening parenthesis and no
closing one, raises no error; the translation returns SQL that references
`t(c)`, the last character of the operand dropped. -/
theorem c7_unclosed_paren_accepted :
    build_create_table_sql "t" ["--int", "a", "--fk", "t(cd"] =
      .ok "CREATE TABLE t (\n  a INTEGER,\n  FOREIGN KEY(a) REFERENCES t(c)\n);" := rfl

/-! ## C8 -/

/-- C8: a column named `name` with `--fk` and a spelling of the target
`(T, C)`, with or without `--ondelete A`, with or without `--onupdate B`, the
actions valid and the modifiers in any order, gets exactly one constraint,
`FOREIGN KEY(name) REFERENCES T(C)` followed by ` ON DELETE A` when given and
then ` ON UPDATE B` when given, the actions as they were written; at any place
of the input and as the only column of a table. -/
theorem c8_fk_constraint_line (table_name ty name spec T C : String) (oA oB : Option String)
    (gs : List (List String)) (hty : ty ∈ FIELD_TYPES) (hT : T ≠ "") (hTs : NoSeparator T)
    (hCs : NoSeparator C) (hspec : spec ∈ fkForms T C)
    (hA : ∀ A, oA = some A → A ∈ FK_ACTIONS) (hB : ∀ B, oB = some B → B ∈ FK_ACTIONS)
    (hperm : gs.Perm (["--fk", spec] ::
      (actionTokens "--ondelete" oA ++ actionTokens "--onupdate" oB))) :
    (∀ (fields : List String) (s : LoopState) (rest : List String),
      fields.drop s.i = ty :: name :: (gs.flatten ++ rest) →
      (∀ r, rest.head? = some r → r ∉ FIELD_MODIFIERS) →
      columnStep fields s = some (.ok
        { i := s.i + 2 + gs.flatten.length,
          columns := s.columns ++ ["  " ++ name ++ " " ++ sqliteType (declaredType ty)],
          constraints := s.constraints ++
            ["FOREIGN KEY(" ++ name ++ ") REFERENCES " ++ T ++ "(" ++ C ++ ")" ++
              actionClause "ON DELETE" oA ++ actionClause "ON UPDATE" oB] })) ∧
    build_create_table_sql table_name (ty :: name :: gs.flatten) =
      .ok ("CREATE TABLE " ++ table_name ++ " (\n" ++
        ("  " ++ name ++ " " ++ sqliteType (declaredType ty)) ++ ",\n" ++
        "  " ++ ("FOREIGN KEY(" ++ name ++ ") REFERENCES " ++ T ++ "(" ++ C ++ ")" ++
              actionClause "ON DELETE" oA ++ actionClause "ON UPDATE" oB) ++
        "\n);") := by
  have hparse := parseFkSpec_forms hT hTs hCs spec hspec
  refine ⟨fun fields s rest hd hr =>
    columnStep_fkColumn oA oB hd hty hparse hT hA hB hperm hr, ?_⟩
  have hstep := @columnStep_fkColumn (ty :: name :: gs.flatten) LoopState.start ty name spec T C
    gs [] oA oB (by simp [LoopState.start]) hty hparse hT hA hB hperm (by simp)
  rw [build_single hstep (by simp [LoopState.start]; omega)]
  simp [LoopState.start, emitColumns, emitConstraints, String.append_assoc]

/-- C8 at scenario S2, whose second column starts at the cursor 3, and at a
table of that column alone with the two actions written before `--fk`. -/
theorem c8_fk_constraint_line_witness :
    columnStep ["--int", "id", "--pk", "--int", "customer_id", "--fk", "customers(id)",
        "--ondelete", "cascade"]
        { i := 3, columns := ["  id INTEGER PRIMARY KEY"], constraints := [] } =
      some (.ok { i := 9, columns := ["  id INTEGER PRIMARY KEY", "  customer_id INTEGER"],
                  constraints :=
                    ["FOREIGN KEY(customer_id) REFERENCES customers(id) ON DELETE cascade"] }) ∧
    build_create_table_sql "orders" ["--int", "customer_id", "--onupdate", "restrict",
        "--ondelete", "cascade", "--fk", "customers.id"] =
      .ok "CREATE TABLE orders (\n  customer_id INTEGER,\n  FOREIGN KEY(customer_id) REFERENCES customers(id) ON DELETE cascade ON UPDATE restrict\n);" :=
  ⟨(c8_fk_constraint_line "orders" "--int" "customer_id" "customers(id)" "customers" "id"
      (some "cascade") none [["--fk", "customers(id)"], ["--ondelete", "cascade"]]
      (by decide) (by decide) (by decide) (by decide) (by decide)
      (by simp [FK_ACTIONS]) (by simp) (List.Perm.refl _)).1
      ["--int", "id", "--pk", "--int", "customer_id", "--fk", "customers(id)",
        "--ondelete", "cascade"]
      { i := 3, columns := ["  id INTEGER PRIMARY KEY"], constraints := [] } [] rfl (by simp),
    (c8_fk_constraint_line "orders" "--int" "customer_id" "customers.id" "customers" "id"
      (some "cascade") (some "restrict")
      [["--onupdate", "restrict"], ["--ondelete", "cascade"], ["--fk", "customers.id"]]
      (by decide) (by decide) (by decide) (by decide) (by decide)
      (by simp [FK_ACTIONS]) (by simp [FK_ACTIONS])
      (by decide)).2⟩

/-! ## C9 -/

/-- C9: when a column reads `--ondelete` or `--onupdate` as a modifier and
the token `X` follows it, the translation fails with the invalid-FK-action
error for `X`, and so returns no SQL, exactly when `X` is not one of
`cascade`, `restrict`, `setnull`, `setdefault`, `noaction`; when `X` is one
of them the loop records it and moves on behind it. -/
theorem c9_invalid_action_iff (table_name : String) (fields : List String) (st : ColState)
    (flag X : String) (hat : AtModifier fields st) (hflag : fields[st.i]? = some flag)
    (hf : flag = "--ondelete" ∨ flag = "--onupdate") (hX : fields[st.i + 1]? = some X) :
    (build_create_table_sql table_name fields = .error (.invalidFkAction X) ↔
      X ∉ FK_ACTIONS) ∧
    (X ∈ FK_ACTIONS → modifierStep fields st = some (.ok
      (if flag = "--ondelete" then { st with i := st.i + 2, on_delete := X }
       else { st with i := st.i + 2, on_update := X }))) := by
  refine ⟨⟨build_invalidAction, fun hn => ?_⟩, fun hin => ?_⟩
  · apply build_error_at_modifier hat
    rcases hf with hf | hf <;> subst hf
    · rw [modifierStep_ondelete hflag, hX]; simp [hn]
    · rw [modifierStep_onupdate hflag, hX]; simp [hn]
  · rcases hf with hf | hf <;> subst hf
    · rw [modifierStep_ondelete hflag, hX]; simp [hin]
    · rw [modifierStep_onupdate hflag, hX]; simp [hin]

/-- C9 at scenario S5, `--ondelete purge`, and at the upper-case `CASCADE`. -/
theorem c9_invalid_action_iff_witness :
    build_create_table_sql "orders" ["--int", "customer_id", "--fk", "customers(id)",
        "--ondelete", "purge"] = .error (.invalidFkAction "purge") ∧
    build_create_table_sql "orders" ["--int", "customer_id", "--onupdate", "CASCADE"] =
      .error (.invalidFkAction "CASCADE") :=
  ⟨(c9_invalid_action_iff "orders"
      ["--int", "customer_id", "--fk", "customers(id)", "--ondelete", "purge"]
      { ColState.init 2 with i := 4, fk_table := "customers", fk_column := "id" }
      "--ondelete" "purge"
      ⟨LoopState.start, "--int", "customer_id", ColumnReach.start, rfl, by decide, rfl,
        ModifierReach.step ModifierReach.start rfl⟩
      rfl (Or.inl rfl) rfl).1.mpr (by decide),
    (c9_invalid_action_iff "orders" ["--int", "customer_id", "--onupdate", "CASCADE"]
      (ColState.init 2) "--onupdate" "CASCADE"
      ⟨LoopState.start, "--int", "customer_id", ColumnReach.start, rfl, by decide, rfl,
        ModifierReach.start⟩
      rfl (Or.inr rfl) rfl).1.mpr (by decide)⟩

/-! ## C10 -/

/-- C10: every iteration of the column loop moves the cursor forward and
appends the definition of the column under the cursor after the columns
gathered so far, and the constraint of that column, if it has one, after the
constraints gathered so far; and SQL that the translation returns is
`CREATE TABLE <name> (`, a newline, the gathered column definitions followed
by the gathered constraints after two spaces each, joined by a comma and a
newline, then a newline and `);`, where every column definition starts with
two spaces. -/
theorem c10_statement_layout (table_name : String) (fields : List String) (sql : String)
    (h : build_create_table_sql table_name fields = .ok sql) :
    (∀ s s' : LoopState, ColumnReach fields s → columnStep fields s = some (.ok s') →
      s.i < s'.i ∧
      ∃ (ty name : String) (st : ColState),
        fields[s.i]? = some ty ∧ fields[s.i + 1]? = some name ∧
        modifierLoop fields (fields.length + 1) (ColState.init (s.i + 2)) = .ok st ∧
        s'.columns = s.columns ++ [columnDef fields ty name st] ∧
        s'.constraints = s.constraints ++ (fkConstraint name st).toList) ∧
    ∃ s : LoopState, ColumnReach fields s ∧ columnStep fields s = none ∧
      (∀ c ∈ s.columns, ∃ body, c = "  " ++ body) ∧
      sql = "CREATE TABLE " ++ table_name ++ " (\n" ++
        joinLines (s.columns ++ s.constraints.map fun c => "  " ++ c) ++ "\n);" := by
  constructor
  · intro s s' _ hstep
    obtain ⟨ty, name, st, hty, _, hname, hst, hc, hk⟩ := columnStep_appends hstep
    exact ⟨by have := columnStep_cursor hstep; omega, ty, name, st, hty, hname, hst, hc, hk⟩
  · cases hloop : columnLoop fields (fields.length + 1) LoopState.start with
    | error e => rw [build_of_loop_error hloop] at h; simp at h
    | ok s =>
      have hreach := columnLoop_reach fields _ _ s ColumnReach.start hloop
      have hnone := columnLoop_final fields _ _ s hloop
      refine ⟨s, hreach, hnone, columns_indented hreach, ?_⟩
      rw [build_of_loop hloop, emit_eq] at h
      simp at h
      rw [← h]

/-- C10 at scenario S1: the two column definitions, in the order of the
input, and the statement around them. -/
theorem c10_statement_layout_witness :
    ∃ s : LoopState,
      ColumnReach ["--int", "id", "--pk", "--ai", "--string", "name", "--notnull"] s ∧
      s.columns = ["  id INTEGER PRIMARY KEY AUTOINCREMENT", "  name TEXT NOT NULL"] ∧
      s.constraints = [] ∧
      "CREATE TABLE users (\n  id INTEGER PRIMARY KEY AUTOINCREMENT,\n  name TEXT NOT NULL\n);" =
        "CREATE TABLE " ++ "users" ++ " (\n" ++
          joinLines (s.columns ++ s.constraints.map fun c => "  " ++ c) ++ "\n);" := by
  obtain ⟨s, hreach, hnone, _, hsql⟩ := (c10_statement_layout "users"
    ["--int", "id", "--pk", "--ai", "--string", "name", "--notnull"]
    "CREATE TABLE users (\n  id INTEGER PRIMARY KEY AUTOINCREMENT,\n  name TEXT NOT NULL\n);"
    rfl).2
  have hloop := (columnLoop_of_reach hreach).trans (columnLoop_done hnone)
  have hrun : columnLoop ["--int", "id", "--pk", "--ai", "--string", "name", "--notnull"] 8
      LoopState.start =
      .ok (LoopState.mk 7
        ["  id INTEGER PRIMARY KEY AUTOINCREMENT", "  name TEXT NOT NULL"] []) := rfl
  have hs := Except.ok.inj (hloop.symm.trans hrun)
  subst hs
  exact ⟨_, hreach, rfl, rfl, hsql⟩

/-! ## C11 -/

theorem sqliteType_declared {ty : String} (h : ty ∈ FIELD_TYPES) :
    ((ty = "--int" ∨ ty = "--bool") ∧ sqliteType (declaredType ty) = "INTEGER") ∨
    (ty = "--float" ∧ sqliteType (declaredType ty) = "REAL") ∨
    (ty ∈ ["--string", "--date", "--blob", "--text"] ∧
      sqliteType (declaredType ty) = "TEXT") := by
  simp only [FIELD_TYPES, List.mem_cons, List.mem_singleton, List.not_mem_nil, or_false] at h
  rcases h with h | h | h | h | h | h | h <;> subst h <;> decide

/-- C11: every column that an iteration of the column loop accepts, with the
type flag `ty` and the name `name` under the cursor, gets a definition that
starts with the two spaces of its line, the name, a space and the affinity:
`INTEGER` for `--int` and `--bool`, `REAL` for `--float`, `TEXT` for
`--string`, `--date`, `--blob` and `--text`; there is no other case. -/
theorem c11_type_mapping (fields : List String) (s s' : LoopState)
    (h : columnStep fields s = some (.ok s')) :
    ∃ (ty name affinity tail : String),
      fields[s.i]? = some ty ∧ fields[s.i + 1]? = some name ∧
      s'.columns = s.columns ++ ["  " ++ name ++ " " ++ affinity ++ tail] ∧
      (((ty = "--int" ∨ ty = "--bool") ∧ affinity = "INTEGER") ∨
       (ty = "--float" ∧ affinity = "REAL") ∨
       (ty ∈ ["--string", "--date", "--blob", "--text"] ∧ affinity = "TEXT")) := by
  obtain ⟨ty, name, st, hty, hmem, hname, _, hcols, _⟩ := columnStep_appends h
  obtain ⟨tail, htail⟩ := applyModifiers_extends fields st.modifiers
    ("  " ++ name ++ " " ++ sqliteType (declaredType ty)) st.i
  refine ⟨ty, name, sqliteType (declaredType ty), tail, hty, hname, ?_,
    sqliteType_declared hmem⟩
  rw [hcols, columnDef, htail]

/-- C11 at `--bool active --notnull`, a column of affinity `INTEGER`. -/
theorem c11_type_mapping_witness :
    ∃ (ty name affinity tail : String),
      ["--bool", "active", "--notnull"][0]? = some ty ∧
      ["--bool", "active", "--notnull"][0 + 1]? = some name ∧
      ["  active INTEGER NOT NULL"] = [] ++ ["  " ++ name ++ " " ++ affinity ++ tail] ∧
      (((ty = "--int" ∨ ty = "--bool") ∧ affinity = "INTEGER") ∨
       (ty = "--float" ∧ affinity = "REAL") ∨
       (ty ∈ ["--string", "--date", "--blob", "--text"] ∧ affinity = "TEXT")) :=
  c11_type_mapping ["--bool", "active", "--notnull"] LoopState.start
    (LoopState.mk 3 ["  active INTEGER NOT NULL"] []) rfl

/-! ## C13 -/

theorem build_error_at_column {table_name : String} {fields : List String} {s : LoopState}
    {e : Err} (hreach : ColumnReach fields s) (hstep : columnStep fields s = some (.error e)) :
    build_create_table_sql table_name fields = .error e :=
  build_of_loop_error ((columnLoop_of_reach hreach).trans (columnLoop_error hstep))

/-- C13, as the code has it: at a column position that a run reaches, a type
flag that is the last token gives the missing-field-name error, a token that
is none of the seven type flags gives the invalid-field-type error, and a
type flag followed by any token at all takes that token as the column name:
the iteration either fails with an error of the modifier loop or appends the
definition of a column of that name. -/
theorem c13_name_and_type_errors (table_name : String) (fields : List String) (s : LoopState)
    (hreach : ColumnReach fields s) :
    (∀ ty, fields[s.i]? = some ty → ty ∈ FIELD_TYPES → fields[s.i + 1]? = none →
      build_create_table_sql table_name fields = .error (.missingFieldName ty)) ∧
    (∀ tok, fields[s.i]? = some tok → tok ∉ FIELD_TYPES →
      build_create_table_sql table_name fields = .error (.invalidFieldType tok)) ∧
    (∀ ty name, fields[s.i]? = some ty → ty ∈ FIELD_TYPES → fields[s.i + 1]? = some name →
      (∃ e, modifierLoop fields (fields.length + 1) (ColState.init (s.i + 2)) = .error e ∧
        columnStep fields s = some (.error e)) ∨
      (∃ st s', modifierLoop fields (fields.length + 1) (ColState.init (s.i + 2)) = .ok st ∧
        columnStep fields s = some (.ok s') ∧
        s'.columns = s.columns ++ [columnDef fields ty name st])) := by
  refine ⟨fun ty hty hmem hnone => ?_, fun tok htok hn => ?_, fun ty name hty hmem hname => ?_⟩
  · apply build_error_at_column hreach
    simp [columnStep, hty, hmem, substr_type hmem, hnone]
  · apply build_error_at_column hreach
    simp [columnStep, htok, hn]
  · cases hloop : modifierLoop fields (fields.length + 1) (ColState.init (s.i + 2)) with
    | error e => exact Or.inl ⟨e, rfl, columnStep_modifierError hty hmem hname hloop⟩
    | ok st => exact Or.inr ⟨st, _, rfl, columnStep_ok hty hmem hname hloop, rfl⟩

/-- C13 at `--int id --text`, a type flag as the last token, and at
`--int id name`, a token that is no type flag at a column position. -/
theorem c13_name_and_type_errors_witness :
    build_create_table_sql "t" ["--int", "id", "--text"] = .error (.missingFieldName "--text") ∧
    build_create_table_sql "t" ["--int", "id", "name"] = .error (.invalidFieldType "name") :=
  ⟨(c13_name_and_type_errors "t" ["--int", "id", "--text"] (LoopState.mk 2 ["  id INTEGER"] [])
      (ColumnReach.step ColumnReach.start rfl)).1 "--text" rfl (by decide) rfl,
    (c13_name_and_type_errors "t" ["--int", "id", "name"] (LoopState.mk 2 ["  id INTEGER"] [])
      (ColumnReach.step ColumnReach.start rfl)).2.1 "name" rfl (by decide)⟩

/-- C13 fails as stated: a flag, another type flag and the empty string after
a type flag are each taken as the column name, and no error is raised. -/
theorem c13_counterexample :
    build_create_table_sql "t" ["--int", "--pk"] = .ok "CREATE TABLE t (\n  --pk INTEGER\n);" ∧
    build_create_table_sql "t" ["--int", "--text"] =
      .ok "CREATE TABLE t (\n  --text INTEGER\n);" ∧
    build_create_table_sql "t" ["--int", ""] = .ok "CREATE TABLE t (\n   INTEGER\n);" :=
  ⟨rfl, rfl, rfl⟩

/-! ## C18 -/

theorem drop_getElem? {fields l : List String} {i : Nat} (h : fields.drop i = l) (k : Nat) :
    fields[i + k]? = l[k]? := by
  rw [← h, List.getElem?_drop]

/-- The loop of lines 174-185 reads the literals from the cursor onwards. -/
theorem applyModifiers_literals (fields : List String) :
    ∀ (mods : List String) (column_def : String) (i : Nat),
      applyModifiers fields mods column_def i =
        (column_def ++ (clausesWithLiterals mods (fields.drop i)).1,
          i + (clausesWithLiterals mods (fields.drop i)).2) := by
  intro mods
  induction mods with
  | nil => intro cd i; simp [applyModifiers, clausesWithLiterals]
  | cons m mods ih =>
    intro cd i
    by_cases hd : m = "--default"
    · subst hd
      cases hdrop : fields.drop i with
      | nil =>
        have hnone := drop_nil hdrop
        simp only [applyModifiers, clausesWithLiterals, hnone]
        simp [ih, hdrop]
      | cons lit tl =>
        have hc := drop_cons hdrop
        simp only [applyModifiers, clausesWithLiterals, hc.1]
        simp [ih, hc.2, String.append_assoc, Nat.add_assoc, Nat.add_comm 1]
    · simp only [applyModifiers, clausesWithLiterals, hd, if_false, modifierClause]
      split
      · simp [ih, String.append_assoc]
      · split
        · simp [ih, String.append_assoc]
        · split
          · simp [ih, String.append_assoc]
          · split
            · simp [ih, String.append_assoc]
            · simp [ih]

theorem clausesWithLiterals_count :
    ∀ (mods rest : List String),
      (clausesWithLiterals mods rest).2 = min (mods.count "--default") rest.length := by
  intro mods
  induction mods with
  | nil => intro rest; simp [clausesWithLiterals]
  | cons m mods ih =>
    intro rest
    by_cases hd : m = "--default"
    · subst hd
      cases rest with
      | nil => simp [clausesWithLiterals, ih]
      | cons lit tl => simp [clausesWithLiterals, ih, Nat.succ_min_succ]
    · have hne : ¬ (m == "--default") = true := by simpa using hd
      simp [clausesWithLiterals, hd, ih, List.count_cons, hne]

theorem drop_append_left {fields mods rest : List String} {i : Nat}
    (h : fields.drop i = mods ++ rest) : fields.drop (i + mods.length) = rest := by
  have : fields.drop (i + mods.length) = (fields.drop i).drop mods.length := by
    rw [List.drop_drop]
  rw [this, h, List.drop_left]

/-- A column whose modifiers are operand-free flags and `--default`s,
followed by the tokens `rest`, at any place of the input. -/
theorem columnStep_defaults {fields : List String} {s : LoopState} {ty name : String}
    {mods rest : List String}
    (hd : fields.drop s.i = ty :: name :: (mods ++ rest)) (hmem : ty ∈ FIELD_TYPES)
    (hm : ∀ m ∈ mods, m ∈ PLAIN_MODIFIERS ∨ m = "--default")
    (hr : ∀ r, rest.head? = some r → r ∉ FIELD_MODIFIERS) :
    columnStep fields s = some (.ok
      { i := s.i + 2 + mods.length + (clausesWithLiterals mods rest).2,
        columns := s.columns ++
          ["  " ++ name ++ " " ++ sqliteType (declaredType ty) ++
            (clausesWithLiterals mods rest).1],
        constraints := s.constraints }) := by
  have h1 := drop_cons hd
  have h2 := drop_cons h1.2
  have hloop := modifierLoop_plain fields mods (ColState.init (s.i + 2)) rest
    (by simpa [ColState.init] using h2.2) hm hr
  rw [columnStep_ok h1.1 hmem h2.1 hloop]
  have hrest : fields.drop (s.i + 2 + mods.length) = rest := drop_append_left h2.2
  simp only [ColState.init, List.nil_append]
  rw [applyModifiers_literals, hrest]
  simp [fkConstraint]

/-- C18: in a column whose run of modifiers holds operand-free flags and
`--default`s, the first `--default` takes as its literal the first token
behind the whole run, each further `--default` the token after that, as long
as tokens are left; the cursor then stands behind the last literal taken, and
when the token there is no type flag the translation fails with the
invalid-field-type error. -/
theorem c18_default_literal_after_run (table_name ty name : String) (mods rest : List String)
    (fields : List String) (s : LoopState) (hty : ty ∈ FIELD_TYPES)
    (hm : ∀ m ∈ mods, m ∈ PLAIN_MODIFIERS ∨ m = "--default")
    (hr : ∀ r, rest.head? = some r → r ∉ FIELD_MODIFIERS)
    (hreach : ColumnReach fields s)
    (hd : fields.drop s.i = ty :: name :: (mods ++ rest)) :
    columnStep fields s = some (.ok
      { i := s.i + 2 + mods.length + (clausesWithLiterals mods rest).2,
        columns := s.columns ++
          ["  " ++ name ++ " " ++ sqliteType (declaredType ty) ++
            (clausesWithLiterals mods rest).1],
        constraints := s.constraints }) ∧
    (clausesWithLiterals mods rest).2 = min (mods.count "--default") rest.length ∧
    (∀ tok, rest[(clausesWithLiterals mods rest).2]? = some tok → tok ∉ FIELD_TYPES →
      build_create_table_sql table_name fields = .error (.invalidFieldType tok)) := by
  have hstep := columnStep_defaults hd hty hm hr
  refine ⟨hstep, clausesWithLiterals_count mods rest, fun tok htok hn => ?_⟩
  have hreach' := ColumnReach.step hreach hstep
  apply build_error_at_column hreach'
  have h2 : fields.drop (s.i + 2) = mods ++ rest := by
    have h1 := drop_cons hd
    exact (drop_cons h1.2).2
  have hrest : fields.drop (s.i + 2 + mods.length) = rest := drop_append_left h2
  have hget := drop_getElem? hrest (clausesWithLiterals mods rest).2
  rw [htok] at hget
  simp [columnStep, hget, hn]

/-- C18 at `--int n --default --notnull 5`, where `5` is the literal, and at
`--int n --default --notnull 5 6`, where `6` is read at a column position. -/
theorem c18_default_literal_after_run_witness :
    columnStep ["--int", "n", "--default", "--notnull", "5"] LoopState.start =
      some (.ok { i := 5, columns := ["  n INTEGER DEFAULT 5 NOT NULL"], constraints := [] }) ∧
    build_create_table_sql "t" ["--int", "n", "--default", "--notnull", "5", "6"] =
      .error (.invalidFieldType "6") :=
  ⟨(c18_default_literal_after_run "t" "--int" "n" ["--default", "--notnull"] ["5"]
      ["--int", "n", "--default", "--notnull", "5"] LoopState.start (by decide) (by decide)
      (by decide) ColumnReach.start rfl).1,
    (c18_default_literal_after_run "t" "--int" "n" ["--default", "--notnull"] ["5", "6"]
      ["--int", "n", "--default", "--notnull", "5", "6"] LoopState.start (by decide)
      (by decide) (by decide) ColumnReach.start rfl).2.2 "6" rfl (by decide)⟩

/-! ## C19 -/

theorem mem_actionTokens {flag : String} {g : List String} {o : Option String}
    (h : g ∈ actionTokens flag o) : ∃ a, o = some a ∧ g = [flag, a] := by
  cases o with
  | none => simp [actionTokens] at h
  | some a => simp [actionTokens] at h; exact ⟨a, rfl, h⟩

theorem getD_action {o : Option String} (h : ∀ a, o = some a → a ∈ FK_ACTIONS) :
    o.getD "cascade" ∈ FK_ACTIONS := by
  cases o with
  | none => decide
  | some a => exact h a rfl

/-- A column whose modifiers are `--ondelete` and `--onupdate` groups and, at
most, an `--fk` whose spec has an empty table part, at any place of the
input. -/
theorem columnStep_noConstraint {fields : List String} {s : LoopState}
    {ty name C : String} {gs : List (List String)} {rest : List String}
    (oF oA oB : Option String)
    (hd : fields.drop s.i = ty :: name :: (gs.flatten ++ rest)) (hmem : ty ∈ FIELD_TYPES)
    (hF : ∀ spec, oF = some spec → parseFkSpec spec = .ok ("", C))
    (hA : ∀ A, oA = some A → A ∈ FK_ACTIONS) (hB : ∀ B, oB = some B → B ∈ FK_ACTIONS)
    (hperm : gs.Perm (actionTokens "--fk" oF ++
      (actionTokens "--ondelete" oA ++ actionTokens "--onupdate" oB)))
    (hr : ∀ r, rest.head? = some r → r ∉ FIELD_MODIFIERS) :
    columnStep fields s = some (.ok
      { i := s.i + 2 + gs.flatten.length,
        columns := s.columns ++ ["  " ++ name ++ " " ++ sqliteType (declaredType ty)],
        constraints := s.constraints }) := by
  have h1 := drop_cons hd
  have h2 := drop_cons h1.2
  have hc : (ColState.init (s.i + 2)).i = s.i + 2 := rfl
  have hgs : ∀ spec0, (∀ spec, oF = some spec → spec = spec0) →
      ∀ g ∈ gs, g = ["--fk", spec0] ∨ g = ["--ondelete", oA.getD "cascade"] ∨
        g = ["--onupdate", oB.getD "cascade"] := by
    intro spec0 h0 g hg
    rcases List.mem_append.mp (hperm.mem_iff.mp hg) with h | h
    · obtain ⟨a, ha, hga⟩ := mem_actionTokens h
      exact Or.inl (by rw [hga, h0 a ha])
    · rcases List.mem_append.mp h with h | h
      · obtain ⟨a, ha, hga⟩ := mem_actionTokens h
        exact Or.inr (Or.inl (by rw [hga, ha]; rfl))
      · obtain ⟨a, ha, hga⟩ := mem_actionTokens h
        exact Or.inr (Or.inr (by rw [hga, ha]; rfl))
  cases oF with
  | none =>
    have hparse : parseFkSpec "a.b" = .ok ("a", "b") := rfl
    have hloop := modifierLoop_groups fields hparse (getD_action hA) (getD_action hB) gs
      (ColState.init (s.i + 2)) rest (by rw [hc]; exact h2.2)
      (hgs "a.b" (fun spec h => by simp at h)) hr
    have hnot : ["--fk", "a.b"] ∉ gs := by
      intro hg
      rcases List.mem_append.mp (hperm.mem_iff.mp hg) with h | h
      · simp [actionTokens] at h
      · rcases List.mem_append.mp h with h | h
        · obtain ⟨a, _, hga⟩ := mem_actionTokens h
          simp at hga
        · obtain ⟨a, _, hga⟩ := mem_actionTokens h
          simp at hga
    rw [columnStep_ok h1.1 hmem h2.1 hloop]
    simp [ColState.init, applyModifiers, fkConstraint, hnot]
  | some spec =>
    have hparse := hF spec rfl
    have hloop := modifierLoop_groups fields hparse (getD_action hA) (getD_action hB) gs
      (ColState.init (s.i + 2)) rest (by rw [hc]; exact h2.2)
      (hgs spec (fun spec' h => by simpa using h.symm)) hr
    rw [columnStep_ok h1.1 hmem h2.1 hloop]
    simp [ColState.init, applyModifiers, fkConstraint]

/-- C19: a column with valid `--ondelete` and `--onupdate` actions, in any
order, and either no `--fk` or an `--fk` whose spec is read with an empty
table part, is accepted, at any place of the input and as the only column of
a table; its definition is `NAME <TYPE>` alone and no constraint is added for
it. In general an iteration of the column loop adds one constraint when the
table part that the modifier loop holds is not empty and none when it is
empty. -/
theorem c19_actions_without_fk (table_name ty name C : String) (oF oA oB : Option String)
    (gs : List (List String)) (hty : ty ∈ FIELD_TYPES)
    (hF : ∀ spec, oF = some spec → parseFkSpec spec = .ok ("", C))
    (hA : ∀ A, oA = some A → A ∈ FK_ACTIONS) (hB : ∀ B, oB = some B → B ∈ FK_ACTIONS)
    (hperm : gs.Perm (actionTokens "--fk" oF ++
      (actionTokens "--ondelete" oA ++ actionTokens "--onupdate" oB))) :
    (∀ (fields : List String) (s : LoopState) (rest : List String),
      fields.drop s.i = ty :: name :: (gs.flatten ++ rest) →
      (∀ r, rest.head? = some r → r ∉ FIELD_MODIFIERS) →
      columnStep fields s = some (.ok
        { i := s.i + 2 + gs.flatten.length,
          columns := s.columns ++ ["  " ++ name ++ " " ++ sqliteType (declaredType ty)],
          constraints := s.constraints })) ∧
    build_create_table_sql table_name (ty :: name :: gs.flatten) =
      .ok ("CREATE TABLE " ++ table_name ++ " (\n" ++
        ("  " ++ name ++ " " ++ sqliteType (declaredType ty)) ++ "\n);") ∧
    (∀ (fields : List String) (s s' : LoopState), columnStep fields s = some (.ok s') →
      ∃ (field_name : String) (st : ColState),
        fields[s.i + 1]? = some field_name ∧
        modifierLoop fields (fields.length + 1) (ColState.init (s.i + 2)) = .ok st ∧
        s'.constraints = s.constraints ++ (fkConstraint field_name st).toList ∧
        (fkConstraint field_name st).toList.length = if st.fk_table = "" then 0 else 1) := by
  refine ⟨fun fields s rest hd hr =>
    columnStep_noConstraint oF oA oB hd hty hF hA hB hperm hr, ?_, ?_⟩
  · have hstep := @columnStep_noConstraint (ty :: name :: gs.flatten) LoopState.start ty name C
      gs [] oF oA oB (by simp [LoopState.start]) hty hF hA hB hperm (by simp)
    rw [build_single hstep (by simp [LoopState.start]; omega)]
    simp [LoopState.start, emitColumns, emitConstraints, String.append_assoc]
  · intro fields s s' hstep
    obtain ⟨_, field_name, st, _, _, hname, hst, _, hk⟩ := columnStep_appends hstep
    refine ⟨field_name, st, hname, hst, hk, ?_⟩
    by_cases ht : st.fk_table = "" <;> simp [fkConstraint, ht]

/-- C19 at `--int a --ondelete cascade`, with no `--fk`, and at
`--int a --onupdate restrict --fk .x`, whose spec has an empty table part. -/
theorem c19_actions_without_fk_witness :
    build_create_table_sql "t" ["--int", "a", "--ondelete", "cascade"] =
      .ok "CREATE TABLE t (\n  a INTEGER\n);" ∧
    build_create_table_sql "t" ["--int", "a", "--onupdate", "restrict", "--fk", ".x"] =
      .ok "CREATE TABLE t (\n  a INTEGER\n);" :=
  ⟨(c19_actions_without_fk "t" "--int" "a" "" none (some "cascade") none
      [["--ondelete", "cascade"]] (by decide) (by simp) (by simp [FK_ACTIONS]) (by simp)
      (List.Perm.refl _)).2.1,
    (c19_actions_without_fk "t" "--int" "a" "x" (some ".x") none (some "restrict")
      [["--onupdate", "restrict"], ["--fk", ".x"]] (by decide)
      (by intro spec h; cases h; rfl) (by simp) (by simp [FK_ACTIONS]) (by decide)).2.1⟩

/-! ## C20 -/

theorem findIdx_lt {c : Char} : ∀ {l : List Char} {k : Nat}, findIdx c l = some k → k < l.length
  | [], _, h => by simp [findIdx] at h
  | x :: xs, k, h => by
    simp only [findIdx] at h
    split at h
    · simp at h; subst h; simp
    · cases hxs : findIdx c xs with
      | none => rw [hxs] at h; simp at h
      | some j =>
        rw [hxs] at h; simp at h; subst h
        have := findIdx_lt hxs
        simp; omega

theorem substr_zero (s : String) (n : Nat) : substr s 0 n = .ok ⟨(s.data.drop 0).take n⟩ := by
  simp [substr]

theorem substr_inRange {s : String} {pos : Nat} (n : Nat) (h : pos ≤ s.data.length) :
    substr s pos n = .ok ⟨(s.data.drop pos).take n⟩ := by
  have : ¬ s.data.length < pos := by omega
  simp only [substr, this, if_false]

theorem substrFrom_inRange {s : String} {pos : Nat} (h : pos ≤ s.data.length) :
    substrFrom s pos = .ok ⟨s.data.drop pos⟩ := by
  have : ¬ s.data.length < pos := by omega
  simp only [substrFrom, this, if_false]

/-- Every substring that lines 118-137 take is in range. -/
theorem splitFkSpec_inRange {s : String} {e : Err} (h : splitFkSpec s = .error e) :
    e = .invalidFkFormat := by
  unfold splitFkSpec at h
  split at h
  · rename_i dot hdot
    have hlt : dot < s.data.length := findIdx_lt hdot
    rw [substr_inRange dot (Nat.zero_le _), substrFrom_inRange (show dot + 1 ≤ _ by omega)] at h
    simp at h
  · split at h
    · rename_i paren hparen
      have hlt : paren < s.data.length := findIdx_lt hparen
      rw [substr_inRange paren (Nat.zero_le _),
        substr_inRange _ (show paren + 1 ≤ s.data.length by omega)] at h
      simp at h
    · simp only at h
      split at h
      · simp at h; exact h.symm
      · rename_i sep hsep
        have hlt : sep < s.data.length := by
          cases hc : find s ',' with
          | some k => rw [hc] at hsep; simp at hsep; subst hsep; exact findIdx_lt hc
          | none => rw [hc] at hsep; exact findIdx_lt hsep
        rw [substr_inRange sep (Nat.zero_le _),
          substrFrom_inRange (show sep + 1 ≤ _ by omega)] at h
        simp at h

/-- Lines 115-117 on an operand that is not empty. -/
theorem stripParens_inRange {s : String} (hs : s ≠ "") : ∃ r, stripParens s = .ok r := by
  cases hdata : s.data with
  | nil => exact absurd hdata (data_ne_nil hs)
  | cons x xs =>
    have hf : front s = some x := by simp [front, hdata]
    have hb : ∃ b, back s = some b := by
      cases h : back s with
      | none => simp [back, hdata] at h
      | some b => exact ⟨b, rfl⟩
    obtain ⟨b, hb⟩ := hb
    by_cases hc : x = '(' ∧ b = ')'
    · refine ⟨⟨(s.data.drop 1).take (sizeSub s.data.length 2)⟩, ?_⟩
      simp only [stripParens, hf, hb, hc, and_self, if_true]
      exact substr_inRange _ (by rw [hdata]; simp)
    · exact ⟨s, by simp only [stripParens, hf, hb, hc, if_false]⟩

theorem parseFkSpec_inRange {s : String} {e : Err} (hs : s ≠ "")
    (h : parseFkSpec s = .error e) : e = .invalidFkFormat := by
  obtain ⟨r, hr⟩ := stripParens_inRange hs
  simp only [parseFkSpec, hr] at h
  exact splitFkSpec_inRange h

theorem modifierStep_diagnostic {fields : List String} {st : ColState} {e : Err}
    (hfk : ∀ i, fields[i]? = some "--fk" → fields[i + 1]? ≠ some "")
    (h : modifierStep fields st = some (.error e)) : e.IsDiagnostic := by
  unfold modifierStep at h
  split at h
  · simp at h
  · rename_i mod hmod
    split at h
    · simp at h
    · split at h
      · rename_i hisfk
        subst hisfk
        split at h
        · simp at h; subst h; trivial
        · rename_i spec hspec
          have hne : spec ≠ "" := fun hempty => hfk st.i hmod (hempty ▸ hspec)
          split at h
          · rename_i e' he'
            simp at h; subst h
            rw [parseFkSpec_inRange hne he']; trivial
          · simp at h
      · split at h
        · split at h
          · simp at h; subst h; trivial
          · split at h
            · simp at h; subst h; trivial
            · simp at h
        · split at h
          · split at h
            · simp at h; subst h; trivial
            · split at h
              · simp at h; subst h; trivial
              · simp at h
          · simp at h

theorem modifierLoop_diagnostic (fields : List String)
    (hfk : ∀ i, fields[i]? = some "--fk" → fields[i + 1]? ≠ some "") {e : Err} :
    ∀ (fuel : Nat) (st : ColState), fields.length - st.i < fuel →
      modifierLoop fields fuel st = .error e → e.IsDiagnostic := by
  intro fuel
  induction fuel with
  | zero => intro st hf; omega
  | succ fuel ih =>
    intro st hf h
    simp only [modifierLoop] at h
    cases hstep : modifierStep fields st with
    | none => rw [hstep] at h; simp at h
    | some r =>
      cases r with
      | error e' =>
        rw [hstep] at h; simp at h; subst h
        exact modifierStep_diagnostic hfk hstep
      | ok st' =>
        rw [hstep] at h
        have hc := modifierStep_cursor hstep
        exact ih st' (by omega) h

theorem columnStep_diagnostic {fields : List String} {s : LoopState} {e : Err}
    (hfk : ∀ i, fields[i]? = some "--fk" → fields[i + 1]? ≠ some "")
    (h : columnStep fields s = some (.error e)) : e.IsDiagnostic := by
  unfold columnStep at h
  split at h
  · simp at h
  · split at h
    · simp at h; subst h; trivial
    · rename_i hmem
      simp only [not_not] at hmem
      rw [substr_type hmem] at h
      simp only at h
      split at h
      · simp at h; subst h; trivial
      · split at h
        · rename_i e' he'
          simp at h; subst h
          exact modifierLoop_diagnostic fields hfk _ _ (by omega) he'
        · simp at h

theorem columnLoop_diagnostic (fields : List String)
    (hfk : ∀ i, fields[i]? = some "--fk" → fields[i + 1]? ≠ some "") {e : Err} :
    ∀ (fuel : Nat) (s : LoopState), fields.length - s.i < fuel →
      columnLoop fields fuel s = .error e → e.IsDiagnostic := by
  intro fuel
  induction fuel with
  | zero => intro s hf; omega
  | succ fuel ih =>
    intro s hf h
    simp only [columnLoop] at h
    cases hstep : columnStep fields s with
    | none => rw [hstep] at h; simp at h
    | some r =>
      cases r with
      | error e' =>
        rw [hstep] at h; simp at h; subst h
        exact columnStep_diagnostic hfk hstep
      | ok s' =>
        rw [hstep] at h
        have hc := columnStep_cursor hstep
        exact ih s' (by omega) h

/-- C20: on a token list in which no `--fk` is followed by the empty string
the translation ends with SQL or with one of the six diagnostics of the
source, never with a substring out of range, the front of an empty string or
a loop out of fuel; every iteration of the modifier loop and of the column
loop that goes on moves the cursor forward and leaves it within the input;
and the spec of an `--fk` that is not empty is split without a substring out
of range. -/
theorem c20_total (table_name : String) (fields : List String)
    (hfk : ∀ i, fields[i]? = some "--fk" → fields[i + 1]? ≠ some "") :
    ((∃ sql, build_create_table_sql table_name fields = .ok sql) ∨
      (∃ e, build_create_table_sql table_name fields = .error e ∧ e.IsDiagnostic)) ∧
    (∀ st st' : ColState, modifierStep fields st = some (.ok st') →
      st.i < st'.i ∧ st'.i ≤ fields.length) ∧
    (∀ s s' : LoopState, columnStep fields s = some (.ok s') →
      s.i < s'.i ∧ s'.i ≤ fields.length) ∧
    (∀ (spec : String) (e : Err), spec ≠ "" → parseFkSpec spec = .error e →
      e = .invalidFkFormat) := by
  refine ⟨?_, fun st st' h => modifierStep_cursor h, fun s s' h => ?_,
    fun spec e hs h => parseFkSpec_inRange hs h⟩
  · cases hloop : columnLoop fields (fields.length + 1) LoopState.start with
    | ok s => exact Or.inl ⟨_, build_of_loop hloop⟩
    | error e =>
      exact Or.inr ⟨e, build_of_loop_error hloop,
        columnLoop_diagnostic fields hfk _ _ (by simp [LoopState.start]) hloop⟩
  · have := columnStep_cursor h
    exact ⟨by omega, this.2⟩

/-- C20 at `--int a --fk t`, which ends with the invalid-FK-format
diagnostic. -/
theorem c20_total_witness :
    (∃ sql, build_create_table_sql "t" ["--int", "a", "--fk", "t"] = .ok sql) ∨
      (∃ e, build_create_table_sql "t" ["--int", "a", "--fk", "t"] = .error e ∧
        e.IsDiagnostic) :=
  (c20_total "t" ["--int", "a", "--fk", "t"] (by
    intro i h
    have hi : i = 2 := by
      match i, h with
      | 0, h => simp at h
      | 1, h => simp at h
      | 2, _ => rfl
      | 3, h => simp at h
      | n + 4, h => simp at h
    subst hi
    simp)).1

/-! ## C14 -/

theorem selectStep_cursor {args : List String} {s s' : SelectState}
    (h : selectStep args s = some s') : s.i < s'.i ∧ s'.i ≤ args.length := by
  unfold selectStep at h
  split at h
  · simp at h
  · rename_i tok htok
    have h0 := getElem?_lt htok
    split at h
    · rename_i w _ hw
      have h1 := getElem?_lt hw
      simp at h; subst h; simp; omega
    · split at h
      · rename_i j c _ hj hc
        have h3 := getElem?_lt hc
        simp at h; subst h; simp; omega
      · simp at h; subst h; simp; omega

theorem selectLoop_fuel (args : List String) :
    ∀ (f1 f2 : Nat) (s : SelectState), args.length - s.i < f1 → args.length - s.i < f2 →
      selectLoop args f1 s = selectLoop args f2 s := by
  intro f1
  induction f1 with
  | zero => intro f2 s h1; omega
  | succ f1 ih =>
    intro f2 s h1 h2
    cases f2 with
    | zero => omega
    | succ f2 =>
      simp only [selectLoop]
      cases hstep : selectStep args s with
      | none => rfl
      | some s' =>
        have hc := selectStep_cursor hstep
        exact ih f2 s' (by omega) (by omega)

theorem selectLoop_step {args : List String} {s s' : SelectState}
    (h : selectStep args s = some s') :
    selectLoop args (args.length + 1) s = selectLoop args (args.length + 1) s' := by
  have hc := selectStep_cursor h
  rw [selectLoop, h]
  exact selectLoop_fuel args _ _ s' (by omega) (by omega)

theorem selectLoop_done {args : List String} {s : SelectState}
    (h : selectStep args s = none) : selectLoop args (args.length + 1) s = some s := by
  rw [selectLoop, h]

/-- The loop of `handle_select` ends within its fuel. -/
theorem selectLoop_total (args : List String) :
    ∀ (fuel : Nat) (s : SelectState), args.length - s.i < fuel →
      ∃ s', selectLoop args fuel s = some s' := by
  intro fuel
  induction fuel with
  | zero => intro s h; omega
  | succ fuel ih =>
    intro s h
    simp only [selectLoop]
    cases hstep : selectStep args s with
    | none => exact ⟨s, rfl⟩
    | some s' =>
      have hc := selectStep_cursor hstep
      exact ih s' (by omega)

theorem selectStep_join {args : List String} {s : SelectState} {J o C : String}
    {rest : List String} (hd : args.drop s.i = "join" :: J :: o :: C :: rest) :
    selectStep args s =
      some { s with i := s.i + 4,
                    join_clause := s.join_clause ++ " JOIN " ++ J ++ " ON " ++ C } := by
  have h0 := drop_getElem? hd 0
  have h1 := drop_getElem? hd 1
  have h3 := drop_getElem? hd 3
  simp only [Nat.add_zero, List.getElem?_cons_zero, List.getElem?_cons_succ] at h0 h1 h3
  simp [selectStep, h0, h1, h3]

theorem selectStep_where {args : List String} {s : SelectState} {W : String}
    {rest : List String} (hd : args.drop s.i = "where" :: W :: rest) :
    selectStep args s = some { s with i := s.i + 2, where_clause := " WHERE " ++ W } := by
  have h0 := drop_getElem? hd 0
  have h1 := drop_getElem? hd 1
  simp only [Nat.add_zero, List.getElem?_cons_zero, List.getElem?_cons_succ] at h0 h1
  simp [selectStep, h0, h1]

theorem selectStep_end {args : List String} {s : SelectState}
    (h : args[s.i]? = none) : selectStep args s = none := by
  simp [selectStep, h]

/-- The loop of `handle_select` over join groups and, at the end, a `where`
with its condition or nothing. -/
theorem selectLoop_groups (args : List String) (oW : Option String) :
    ∀ (groups : List (String × String)) (s : SelectState),
      args.drop s.i = joinTokens groups ++ (actionTokens "where" oW).flatten →
      ∃ s', selectLoop args (args.length + 1) s = some s' ∧
        s'.join_clause = s.join_clause ++ joinClauses groups ∧
        s'.where_clause = (match oW with
          | some W => " WHERE " ++ W
          | none => s.where_clause) := by
  intro groups
  induction groups with
  | nil =>
    intro s hd
    cases oW with
    | none =>
      simp [joinTokens, actionTokens] at hd
      have hnone : args[s.i]? = none := List.getElem?_eq_none_iff.mpr hd
      exact ⟨s, selectLoop_done (selectStep_end hnone), by simp [joinClauses], rfl⟩
    | some W =>
      have hd' : args.drop s.i = "where" :: W :: [] := by
        simpa [joinTokens, actionTokens] using hd
      have hstep := selectStep_where hd'
      have hnil : args.drop (s.i + 2) = [] := by
        have := drop_append_left (show args.drop s.i = ["where", W] ++ [] from hd')
        simpa using this
      have hnone : selectStep args
          { s with i := s.i + 2, where_clause := " WHERE " ++ W } = none :=
        selectStep_end (drop_nil hnil)
      exact ⟨_, (selectLoop_step hstep).trans (selectLoop_done hnone),
        by simp [joinClauses], rfl⟩
  | cons g groups ih =>
    intro s hd
    obtain ⟨J, C⟩ := g
    have hd' : args.drop s.i = "join" :: J :: "on" :: C ::
        (joinTokens groups ++ (actionTokens "where" oW).flatten) := by
      simpa [joinTokens] using hd
    have hstep := selectStep_join hd'
    have hrest : args.drop (s.i + 4) =
        joinTokens groups ++ (actionTokens "where" oW).flatten := by
      have := drop_append_left (show args.drop s.i = ["join", J, "on", C] ++
        (joinTokens groups ++ (actionTokens "where" oW).flatten) from hd')
      simpa using this
    obtain ⟨s', hloop, hj, hw⟩ := ih
      { s with i := s.i + 4, join_clause := s.join_clause ++ " JOIN " ++ J ++ " ON " ++ C }
      hrest
    refine ⟨s', (selectLoop_step hstep).trans hloop, ?_, hw⟩
    rw [hj]; simp [joinClauses, String.append_assoc]

/-- C14: for all tokens `F`, `T`, all join groups `(J, C)` and an optional
`W`, the select handler given `F from T`, then `join J on C` for each group,
then `where W` if there is one, assembles `SELECT F FROM T`, the fragments
` JOIN J ON C` in the order of the groups, ` WHERE W` if there is one, and
`;`; it prints that statement and hands it to `sqlite3_prepare_v2`. -/
theorem c14_select_assembly (w : Engine) (F T : String) (groups : List (String × String))
    (oW : Option String) :
    handle_select w ([F, "from", T] ++ joinTokens groups ++ (actionTokens "where" oW).flatten) =
      (.stdout ("SQL:\n" ++ selectSql F T groups oW ++ "\n") ::
          (execute_sql w (selectSql F T groups oW) true).1,
        if (execute_sql w (selectSql F T groups oW) true).2 then .returned
        else .thrown "Error en la consulta") ∧
    (execute_sql w (selectSql F T groups oW) true).1.head? =
      some (.sqlite3_prepare (selectSql F T groups oW)) := by
  constructor
  · obtain ⟨s', hloop, hj, hw⟩ := selectLoop_groups
      ([F, "from", T] ++ joinTokens groups ++ (actionTokens "where" oW).flatten) oW groups
      SelectState.start (by simp [SelectState.start])
    have hsql : "SELECT " ++ F ++ " FROM " ++ T ++ s'.join_clause ++ s'.where_clause ++ ";" =
        selectSql F T groups oW := by
      rw [hj, hw]
      cases oW <;> simp [selectSql, actionClause, SelectState.start, String.append_assoc]
    simp only [SelectState.start] at hloop
    simp only [handle_select, List.cons_append, List.nil_append, ne_eq, not_true_eq_false,
      if_false]
    simp only [List.cons_append, List.nil_append] at hloop
    rw [hloop]
    simp only [hsql]
    split <;> rfl
  · simp only [execute_sql, if_true]
    split <;> rfl

/-- C14 at scenario S6. -/
theorem c14_select_assembly_witness :
    handle_select Engine.accepting ["id,name", "from", "users", "join", "accounts", "on",
        "users.id = accounts.uid", "where", "users.active=1"] =
      ([.stdout "SQL:\nSELECT id,name FROM users JOIN accounts ON users.id = accounts.uid WHERE users.active=1;\n",
        .sqlite3_prepare "SELECT id,name FROM users JOIN accounts ON users.id = accounts.uid WHERE users.active=1;",
        .stdout "\n\n", .sqlite3_finalize], .returned) :=
  (c14_select_assembly Engine.accepting "id,name" "users"
    [("accounts", "users.id = accounts.uid")] (some "users.active=1")).1

/-! ## C15 -/

theorem execute_sql_exec_head (w : Engine) (sql : String) :
    (execute_sql w sql false).1.head? = some (.sqlite3_exec sql) := by
  simp only [execute_sql, Bool.false_eq_true, if_false]
  split <;> rfl

theorem handle_create_reject (w : Engine) (args : List String)
    (h : args.length < 4 ∨ args[0]? ≠ some "--table" ∨ args[2]? ≠ some "fields") :
    handle_create w args =
      ([], .thrown "Sintaxis inválida. Uso: create --table <nombre> fields <definiciones>") := by
  rcases args with _ | ⟨a0, _ | ⟨t, _ | ⟨a2, _ | ⟨v, rest⟩⟩⟩⟩ <;> try rfl
  simp at h
  have h' : a0 ≠ "--table" ∨ a2 ≠ "fields" := by
    rcases h with h | h | h
    · omega
    · exact Or.inl h
    · exact Or.inr h
  simp only [handle_create, h', if_true]

theorem handle_insert_reject (w : Engine) (args : List String)
    (h : args.length < 4 ∨ args[0]? ≠ some "--table" ∨ args[2]? ≠ some "values") :
    handle_insert w args =
      ([], .thrown "Sintaxis inválida. Uso: insert --table <nombre> values <valores>") := by
  rcases args with _ | ⟨a0, _ | ⟨t, _ | ⟨a2, _ | ⟨v, rest⟩⟩⟩⟩ <;> try rfl
  simp at h
  have h' : a0 ≠ "--table" ∨ a2 ≠ "values" := by
    rcases h with h | h | h
    · omega
    · exact Or.inl h
    · exact Or.inr h
  simp only [handle_insert, h', if_true]

theorem handle_update_reject (w : Engine) (args : List String)
    (h : args.length < 6 ∨ args[0]? ≠ some "--table" ∨ args[2]? ≠ some "set" ∨
      args[4]? ≠ some "where") :
    handle_update w args = ([], .thrown
      "Sintaxis inválida. Uso: update --table <nombre> set <campo=valor> where <condicion>") := by
  rcases args with _ | ⟨a0, _ | ⟨t, _ | ⟨a2, _ | ⟨v, _ | ⟨a4, _ | ⟨c, rest⟩⟩⟩⟩⟩⟩ <;> try rfl
  simp at h
  have h' : a0 ≠ "--table" ∨ a2 ≠ "set" ∨ a4 ≠ "where" := by
    rcases h with h | h | h | h
    · omega
    · exact Or.inl h
    · exact Or.inr (Or.inl h)
    · exact Or.inr (Or.inr h)
  simp only [handle_update, h', if_true]

theorem handle_delete_reject (w : Engine) (args : List String)
    (h : args.length < 4 ∨ args[0]? ≠ some "--table" ∨ args[2]? ≠ some "where") :
    handle_delete w args =
      ([], .thrown "Sintaxis inválida. Uso: delete --table <nombre> where <condicion>") := by
  rcases args with _ | ⟨a0, _ | ⟨t, _ | ⟨a2, _ | ⟨v, rest⟩⟩⟩⟩ <;> try rfl
  simp at h
  have h' : a0 ≠ "--table" ∨ a2 ≠ "where" := by
    rcases h with h | h | h
    · omega
    · exact Or.inl h
    · exact Or.inr h
  simp only [handle_delete, h', if_true]

theorem handle_select_reject (w : Engine) (args : List String)
    (h : args.length < 3 ∨ args[1]? ≠ some "from") :
    handle_select w args = ([], .thrown
      "Sintaxis inválida. Uso: select [*|campos] from <tabla> [where <condicion>]") := by
  rcases args with _ | ⟨a0, _ | ⟨a1, _ | ⟨t, rest⟩⟩⟩ <;> try rfl
  simp at h
  have h' : a1 ≠ "from" := by
    rcases h with h | h
    · omega
    · exact h
  simp only [handle_select, ne_eq, h', not_false_eq_true, if_true]

theorem handle_select_accept (w : Engine) (F T : String) (rest : List String) :
    ∃ sql, (handle_select w (F :: "from" :: T :: rest)).1 =
      .stdout ("SQL:\n" ++ sql ++ "\n") :: (execute_sql w sql true).1 := by
  obtain ⟨s, hs⟩ := selectLoop_total (F :: "from" :: T :: rest)
    ((F :: "from" :: T :: rest).length + 1) SelectState.start (by simp [SelectState.start]; omega)
  simp only [SelectState.start] at hs
  refine ⟨"SELECT " ++ F ++ " FROM " ++ T ++ s.join_clause ++ s.where_clause ++ ";", ?_⟩
  simp only [handle_select, ne_eq, not_true_eq_false, if_false, hs]
  split <;> rfl

/-- C15, as the code has it: each handler rejects an argument list with its
invalid-syntax error, before any SQL is assembled, printed or executed, when
the list is shorter than the skeleton or a keyword position does not hold
its keyword; every other list is accepted: `insert`, `update` and `delete`
read the tokens of the skeleton, ignore the tokens behind it and hand their
statement to `sqlite3_exec`, `create` hands the field tokens to the
translator, and `select` assembles and prints a statement whatever follows
`F from T`. -/
theorem c15_skeleton_checks (w : Engine) :
    (∀ args : List String,
      (args.length < 4 ∨ args[0]? ≠ some "--table" ∨ args[2]? ≠ some "fields") →
      handle_create w args = ([], .thrown
        "Sintaxis inválida. Uso: create --table <nombre> fields <definiciones>")) ∧
    (∀ args : List String,
      (args.length < 4 ∨ args[0]? ≠ some "--table" ∨ args[2]? ≠ some "values") →
      handle_insert w args = ([], .thrown
        "Sintaxis inválida. Uso: insert --table <nombre> values <valores>")) ∧
    (∀ args : List String,
      (args.length < 6 ∨ args[0]? ≠ some "--table" ∨ args[2]? ≠ some "set" ∨
        args[4]? ≠ some "where") →
      handle_update w args = ([], .thrown
        "Sintaxis inválida. Uso: update --table <nombre> set <campo=valor> where <condicion>")) ∧
    (∀ args : List String,
      (args.length < 4 ∨ args[0]? ≠ some "--table" ∨ args[2]? ≠ some "where") →
      handle_delete w args = ([], .thrown
        "Sintaxis inválida. Uso: delete --table <nombre> where <condicion>")) ∧
    (∀ args : List String, (args.length < 3 ∨ args[1]? ≠ some "from") →
      handle_select w args = ([], .thrown
        "Sintaxis inválida. Uso: select [*|campos] from <tabla> [where <condicion>]")) ∧
    (∀ (N f sql : String) (rest : List String),
      build_create_table_sql N (f :: rest) = .ok sql →
      (handle_create w ("--table" :: N :: "fields" :: f :: rest)).1.head? =
        some (.stdout ("SQL:\n" ++ sql ++ "\n"))) ∧
    (∀ (N V : String) (rest : List String),
      (handle_insert w ("--table" :: N :: "values" :: V :: rest)).1.head? =
        some (.sqlite3_exec ("INSERT INTO " ++ N ++ " VALUES (" ++ V ++ ");"))) ∧
    (∀ (N S W : String) (rest : List String),
      (handle_update w ("--table" :: N :: "set" :: S :: "where" :: W :: rest)).1.head? =
        some (.sqlite3_exec ("UPDATE " ++ N ++ " SET " ++ S ++ " WHERE " ++ W ++ ";"))) ∧
    (∀ (N W : String) (rest : List String),
      (handle_delete w ("--table" :: N :: "where" :: W :: rest)).1.head? =
        some (.sqlite3_exec ("DELETE FROM " ++ N ++ " WHERE " ++ W ++ ";"))) ∧
    (∀ (F T : String) (rest : List String),
      ∃ sql, (handle_select w (F :: "from" :: T :: rest)).1 =
        .stdout ("SQL:\n" ++ sql ++ "\n") :: (execute_sql w sql true).1) := by
  refine ⟨handle_create_reject w, handle_insert_reject w, handle_update_reject w,
    handle_delete_reject w, handle_select_reject w, ?_, ?_, ?_, ?_, handle_select_accept w⟩
  · intro N f sql rest hb
    simp only [handle_create, ne_eq, not_true_eq_false, or_self, if_false, hb]
    split <;> rfl
  · intro N V rest
    have := execute_sql_exec_head w ("INSERT INTO " ++ N ++ " VALUES (" ++ V ++ ");")
    simp only [handle_insert, ne_eq, not_true_eq_false, or_self, if_false]
    split
    · rw [List.head?_append, this]; rfl
    · exact this
  · intro N S W rest
    have := execute_sql_exec_head w ("UPDATE " ++ N ++ " SET " ++ S ++ " WHERE " ++ W ++ ";")
    simp only [handle_update, ne_eq, not_true_eq_false, or_self, if_false]
    split
    · rw [List.head?_append, this]; rfl
    · exact this
  · intro N W rest
    have := execute_sql_exec_head w ("DELETE FROM " ++ N ++ " WHERE " ++ W ++ ";")
    simp only [handle_delete, ne_eq, not_true_eq_false, or_self, if_false]
    split
    · rw [List.head?_append, this]; rfl
    · exact this

/-- C15 at `update --table t set a=1 WHERE x`, whose fifth token is not the
keyword, and at `select * FROM t`. -/
theorem c15_skeleton_checks_witness :
    handle_update Engine.accepting ["--table", "t", "set", "a=1", "WHERE", "x"] = ([], .thrown
      "Sintaxis inválida. Uso: update --table <nombre> set <campo=valor> where <condicion>") ∧
    handle_select Engine.accepting ["*", "FROM", "t"] = ([], .thrown
      "Sintaxis inválida. Uso: select [*|campos] from <tabla> [where <condicion>]") :=
  ⟨(c15_skeleton_checks Engine.accepting).2.2.1 ["--table", "t", "set", "a=1", "WHERE", "x"]
      (by decide),
    (c15_skeleton_checks Engine.accepting).2.2.2.2.1 ["*", "FROM", "t"] (by decide)⟩

/-- C15 fails as stated: a token behind a complete insert skeleton is not
rejected, the statement is executed; and a join group whose third token is
not `on` is not rejected, the statement is assembled and prepared. -/
theorem c15_counterexample :
    handle_insert Engine.accepting ["--table", "t", "values", "1", "extra"] =
      ([.sqlite3_exec "INSERT INTO t VALUES (1);", .stdout "Datos insertados en 't'\n"],
        .returned) ∧
    handle_select Engine.accepting ["*", "from", "t", "join", "u", "x", "c"] =
      ([.stdout "SQL:\nSELECT * FROM t JOIN u ON c;\n",
        .sqlite3_prepare "SELECT * FROM t JOIN u ON c;",
        .stdout "\n\n", .sqlite3_finalize], .returned) :=
  ⟨rfl, rfl⟩

/-! ## C16 -/

/-- C16: when the translator fails on the field tokens of a `create`, the
handler ends with that failure and with no event at all: nothing is printed
and `sqlite3_exec` is not called; a run of the program then only opens the
database, reports the error, shows the help and closes the database, with
the exit code 1. -/
theorem c16_create_failure_no_sql (w : Engine) (table_name f : String) (rest : List String)
    (e : Err) (h : build_create_table_sql table_name (f :: rest) = .error e) :
    handle_create w ("--table" :: table_name :: "fields" :: f :: rest) =
      ([], match e.what with
        | some what => .thrown what
        | none => .undefined) ∧
    (∀ (program db_file what : String), e.what = some what → w.openDb db_file = .ok →
      main w (program :: "--db" :: db_file :: "create" :: "--table" :: table_name ::
          "fields" :: f :: rest) =
        ([.sqlite3_open db_file, .stderr ("Error: " ++ what ++ "\n"), .help, .sqlite3_close],
          some 1)) := by
  have hc : handle_create w ("--table" :: table_name :: "fields" :: f :: rest) =
      ([], match e.what with
        | some what => .thrown what
        | none => .undefined) := by
    simp only [handle_create, ne_eq, not_true_eq_false, or_self, if_false, h]
    cases e.what <;> rfl
  refine ⟨hc, fun program db_file what hw hopen => ?_⟩
  simp only [main, ne_eq, not_true_eq_false, if_false, List.head?_cons, hopen, List.tail_cons,
    dispatch, if_true, hc, hw]
  rfl

/-- C16 at scenario S5, `--ondelete purge`. -/
theorem c16_create_failure_no_sql_witness :
    handle_create Engine.accepting ["--table", "orders", "fields", "--int", "customer_id",
        "--fk", "customers(id)", "--ondelete", "purge"] =
      ([], .thrown "Acción FK inválida: purge") ∧
    main Engine.accepting ["fastdb", "--db", "app.db", "create", "--table", "orders", "fields",
        "--int", "customer_id", "--fk", "customers(id)", "--ondelete", "purge"] =
      ([.sqlite3_open "app.db", .stderr "Error: Acción FK inválida: purge\n", .help,
        .sqlite3_close], some 1) :=
  ⟨(c16_create_failure_no_sql Engine.accepting "orders" "--int"
      ["customer_id", "--fk", "customers(id)", "--ondelete", "purge"]
      (.invalidFkAction "purge") rfl).1,
    (c16_create_failure_no_sql Engine.accepting "orders" "--int"
      ["customer_id", "--fk", "customers(id)", "--ondelete", "purge"]
      (.invalidFkAction "purge") rfl).2 "fastdb" "app.db" "Acción FK inválida: purge" rfl rfl⟩

/-! ## C17 -/

theorem execute_sql_noClose (w : Engine) (sql : String) (b : Bool) :
    Event.sqlite3_close ∉ (execute_sql w sql b).1 := by
  unfold execute_sql
  split
  · split <;> simp
  · split <;> simp

theorem handle_create_noClose (w : Engine) (args : List String) :
    Event.sqlite3_close ∉ (handle_create w args).1 := by
  unfold handle_create
  split
  · split
    · simp
    · split
      · split <;> simp
      · rename_i sql _
        have := execute_sql_noClose w sql false
        simp only
        split <;> simp [this]
  · simp

theorem handle_insert_noClose (w : Engine) (args : List String) :
    Event.sqlite3_close ∉ (handle_insert w args).1 := by
  unfold handle_insert
  split
  · rename_i a0 N a2 V rest
    split
    · simp
    · have := execute_sql_noClose w ("INSERT INTO " ++ N ++ " VALUES (" ++ V ++ ");") false
      simp only
      split <;> simp [this]
  · simp

theorem handle_update_noClose (w : Engine) (args : List String) :
    Event.sqlite3_close ∉ (handle_update w args).1 := by
  unfold handle_update
  split
  · rename_i a0 N a2 S a4 W rest
    split
    · simp
    · have := execute_sql_noClose w
        ("UPDATE " ++ N ++ " SET " ++ S ++ " WHERE " ++ W ++ ";") false
      simp only
      split <;> simp [this]
  · simp

theorem handle_delete_noClose (w : Engine) (args : List String) :
    Event.sqlite3_close ∉ (handle_delete w args).1 := by
  unfold handle_delete
  split
  · rename_i a0 N a2 W rest
    split
    · simp
    · have := execute_sql_noClose w ("DELETE FROM " ++ N ++ " WHERE " ++ W ++ ";") false
      simp only
      split <;> simp [this]
  · simp

theorem handle_select_noClose (w : Engine) (args : List String) :
    Event.sqlite3_close ∉ (handle_select w args).1 := by
  unfold handle_select
  split
  · rename_i F a1 T rest
    split
    · simp
    · split
      · simp
      · rename_i s _
        have := execute_sql_noClose w
          ("SELECT " ++ F ++ " FROM " ++ T ++ s.join_clause ++ s.where_clause ++ ";") true
        simp only
        split <;> simp [this]
  · simp

theorem handle_transaction_noClose (w : Engine) (action : String) :
    Event.sqlite3_close ∉ (handle_transaction w action).1 := by
  unfold handle_transaction
  have := execute_sql_noClose w (action ++ ";") false
  simp only
  split <;> simp [this]

/-- No handler closes the database. -/
theorem dispatch_noClose (w : Engine) (command : String) (args : List String) :
    Event.sqlite3_close ∉ (dispatch w command args).1 := by
  unfold dispatch
  split
  · exact handle_create_noClose w args
  · split
    · exact handle_insert_noClose w args
    · split
      · exact handle_update_noClose w args
      · split
        · exact handle_delete_noClose w args
        · split
          · exact handle_select_noClose w args
          · split
            · exact handle_transaction_noClose w command
            · simp

/-- With a verb, a run that opened the database and whose handler returns or
throws closes the database exactly once. -/
theorem main_closes_once_with_verb (w : Engine) (program db_file command : String)
    (args : List String) (hopen : w.openDb db_file = .ok)
    (hdef : (dispatch w command args).2 ≠ .undefined) :
    (main w (program :: "--db" :: db_file :: command :: args)).1.count .sqlite3_close = 1 := by
  have hno := dispatch_noClose w command args
  have hcount : (dispatch w command args).1.count .sqlite3_close = 0 :=
    List.count_eq_zero.mpr hno
  simp only [main, ne_eq, not_true_eq_false, if_false, List.head?_cons, hopen, List.tail_cons]
  cases hr : (dispatch w command args).2 with
  | returned => simp [List.count_cons, hcount]
  | thrown what => simp [List.count_cons, hcount, catchBlock]
  | undefined => exact absurd hr hdef

/-- C17 against the code: with `--db <file>` and no verb the program opens
the database, shows the help and returns 0 without a call of
`sqlite3_close`; when the open fails it reports the error and closes the
handle if there is one. -/
theorem c17_no_verb_leaves_handle_open :
    main Engine.accepting ["fastdb", "--db", "app.db"] =
      ([.sqlite3_open "app.db", .help], some 0) ∧
    (∀ (w : Engine) (program db_file : String),
      main w [program, "--db", db_file] =
        match w.openDb db_file with
        | .ok => ([.sqlite3_open db_file, .help], some 0)
        | .failed handle =>
          (.sqlite3_open db_file ::
            catchBlock ("No se pudo abrir la base de datos: " ++ w.openMessage db_file) handle,
            some 1)) := by
  refine ⟨rfl, fun w program db_file => ?_⟩
  simp only [main, ne_eq, not_true_eq_false, if_false, List.head?_cons, List.tail_cons]
  cases w.openDb db_file <;> rfl

/-! ## C12 -/

/-- The state of the modifier loop with its cursor moved by `k`. -/
theorem modifierStep_shift {fields fields' : List String} {k : Nat}
    (hk : ∀ j, fields'[k + j]? = fields[j]?) (st : ColState) :
    modifierStep fields' { st with i := k + st.i } =
      (modifierStep fields st).map
        (fun r => r.map (fun st' => { st' with i := k + st'.i })) := by
  have h0 := hk st.i
  have h1 := hk (st.i + 1)
  simp only [modifierStep, ← Nat.add_assoc] at h1 ⊢
  rw [h0, h1]
  cases fields[st.i]? with
  | none => rfl
  | some mod =>
    simp only
    split
    · rfl
    · split
      · cases fields[st.i + 1]? with
        | none => rfl
        | some spec =>
          simp only
          cases parseFkSpec spec with
          | error e => rfl
          | ok tc => rfl
      · split
        · cases fields[st.i + 1]? with
          | none => rfl
          | some a =>
            simp only
            split <;> rfl
        · split
          · cases fields[st.i + 1]? with
            | none => rfl
            | some a =>
              simp only
              split <;> rfl
          · rfl

theorem modifierLoop_shift {fields fields' : List String} {k : Nat}
    (hk : ∀ j, fields'[k + j]? = fields[j]?) :
    ∀ (fuel : Nat) (st : ColState),
      modifierLoop fields' fuel { st with i := k + st.i } =
        (modifierLoop fields fuel st).map (fun st' => { st' with i := k + st'.i }) := by
  intro fuel
  induction fuel with
  | zero => intro st; rfl
  | succ fuel ih =>
    intro st
    simp only [modifierLoop]
    rw [modifierStep_shift hk st]
    cases modifierStep fields st with
    | none => rfl
    | some r =>
      cases r with
      | error e => rfl
      | ok st' => exact ih st'

theorem append_getElem?_right (A B : List String) (j : Nat) :
    (A ++ B)[A.length + j]? = B[j]? := by
  rw [List.getElem?_append_right (by omega)]
  congr 1
  omega

theorem applyModifiers_shift (A B : List String) (mods : List String) (column_def : String)
    (i : Nat) :
    applyModifiers (A ++ B) mods column_def (A.length + i) =
      ((applyModifiers B mods column_def i).1, A.length + (applyModifiers B mods column_def i).2) := by
  rw [applyModifiers_literals, applyModifiers_literals, List.drop_append]
  simp [Nat.add_assoc]

theorem fkConstraint_cursor (name : String) (st : ColState) (k : Nat) :
    fkConstraint name { st with i := k } = fkConstraint name st := rfl

/-- An iteration of the column loop on `B` behind `A`. -/
theorem columnStep_shift (A B : List String) (c0 k0 : List String) (s : LoopState) :
    columnStep (A ++ B)
        { i := A.length + s.i, columns := c0 ++ s.columns, constraints := k0 ++ s.constraints } =
      (columnStep B s).map (fun r => r.map (fun s' =>
        { i := A.length + s'.i, columns := c0 ++ s'.columns,
          constraints := k0 ++ s'.constraints })) := by
  have hk : ∀ j, (A ++ B)[A.length + j]? = B[j]? := append_getElem?_right A B
  have h0 := hk s.i
  have h1 := hk (s.i + 1)
  have hloop : modifierLoop (A ++ B) ((A ++ B).length + 1)
      (ColState.init (A.length + s.i + 2)) =
      (modifierLoop B (B.length + 1) (ColState.init (s.i + 2))).map
        (fun st' => { st' with i := A.length + st'.i }) := by
    have := modifierLoop_shift hk (B.length + 1) (ColState.init (s.i + 2))
    rw [← this]
    apply modifierLoop_fuel
    · simp [ColState.init]; omega
    · simp [ColState.init]; omega
  simp only [columnStep, ← Nat.add_assoc] at h1 ⊢
  rw [h0, h1, hloop]
  cases B[s.i]? with
  | none => rfl
  | some ty =>
    simp only
    split
    · rfl
    · cases substrFrom ty 2 with
      | error e => rfl
      | ok ft =>
        simp only
        cases B[s.i + 1]? with
        | none => rfl
        | some name =>
          simp only
          cases modifierLoop B (B.length + 1) (ColState.init (s.i + 2)) with
          | error e => rfl
          | ok st =>
            simp only [Except.map, Option.map, applyModifiers_shift, fkConstraint_cursor]
            cases fkConstraint name st <;> simp [List.append_assoc]

/-- The column loop on `B` behind `A`, with the columns `c0` and the
constraints `k0` gathered before. -/
theorem columnLoop_shift (A B : List String) (c0 k0 : List String) :
    ∀ (fuel : Nat) (s sB : LoopState), columnLoop B fuel s = .ok sB →
      columnLoop (A ++ B) ((A ++ B).length + 1)
          { i := A.length + s.i, columns := c0 ++ s.columns,
            constraints := k0 ++ s.constraints } =
        .ok { i := A.length + sB.i, columns := c0 ++ sB.columns,
              constraints := k0 ++ sB.constraints } := by
  intro fuel
  induction fuel with
  | zero => intro s sB h; simp [columnLoop] at h
  | succ fuel ih =>
    intro s sB h
    simp only [columnLoop] at h
    have hshift := columnStep_shift A B c0 k0 s
    cases hstep : columnStep B s with
    | none =>
      rw [hstep] at h hshift
      simp at h; subst h
      exact columnLoop_done hshift
    | some r =>
      cases r with
      | error e => rw [hstep] at h; simp at h
      | ok s1 =>
        rw [hstep] at h hshift
        exact (columnLoop_step hshift).trans (ih s1 sB h)

theorem append_getElem?_left {A : List String} (B : List String) {i : Nat} {x : String}
    (h : A[i]? = some x) : (A ++ B)[i]? = some x := by
  rw [List.getElem?_append_left (getElem?_lt h)]; exact h

/-- An iteration of the modifier loop that goes through on `A` goes through
in the same way on `A ++ B`. -/
theorem modifierStep_append_ok {A : List String} (B : List String) {st st' : ColState}
    (h : modifierStep A st = some (.ok st')) :
    modifierStep (A ++ B) st = some (.ok st') := by
  unfold modifierStep at h
  split at h
  · simp at h
  · rename_i mod hmod
    have h0 := append_getElem?_left B hmod
    split at h
    · simp at h
    · rename_i hin
      split at h
      · rename_i hfk
        split at h
        · simp at h
        · rename_i spec hspec
          have h1 := append_getElem?_left B hspec
          split at h
          · simp at h
          · rename_i t c hp
            simp at h; subst h
            simp [modifierStep, h0, h1, hfk, hp, FIELD_MODIFIERS]
      · rename_i hfk
        split at h
        · rename_i hod
          split at h
          · simp at h
          · rename_i a ha
            have h1 := append_getElem?_left B ha
            split at h
            · simp at h
            · rename_i hact
              simp at h; subst h
              simp only [not_not] at hact
              simp [modifierStep, h0, h1, hod, hact, FIELD_MODIFIERS]
        · rename_i hod
          split at h
          · rename_i hou
            split at h
            · simp at h
            · rename_i a ha
              have h1 := append_getElem?_left B ha
              split at h
              · simp at h
              · rename_i hact
                simp at h; subst h
                simp only [not_not] at hact
                simp [modifierStep, h0, h1, hou, hact, FIELD_MODIFIERS]
          · rename_i hou
            simp at h; subst h
            simp [modifierStep, h0, hin, hfk, hod, hou]

theorem modifierStep_none {fields : List String} {st : ColState}
    (h : modifierStep fields st = none) :
    fields[st.i]? = none ∨ ∃ tok, fields[st.i]? = some tok ∧ tok ∉ FIELD_MODIFIERS := by
  unfold modifierStep at h
  split at h
  · left; assumption
  · rename_i mod hmod
    split at h
    · rename_i hn
      exact Or.inr ⟨mod, hmod, hn⟩
    · exfalso
      revert h
      repeat' split
      all_goals simp

/-- The modifier loop that ends on `A` ends in the same state on `A ++ B`,
when `B` does not start with a modifier. -/
theorem modifierLoop_append {A : List String} (B : List String)
    (hB : ∀ r, B.head? = some r → r ∉ FIELD_MODIFIERS) :
    ∀ (fuel : Nat) (st st' : ColState), st.i ≤ A.length →
      modifierLoop A fuel st = .ok st' →
      modifierLoop (A ++ B) ((A ++ B).length + 1) st = .ok st' := by
  intro fuel
  induction fuel with
  | zero => intro st st' _ h; simp [modifierLoop] at h
  | succ fuel ih =>
    intro st st' hi h
    simp only [modifierLoop] at h
    cases hstep : modifierStep A st with
    | none =>
      rw [hstep] at h; simp at h; subst h
      apply modifierLoop_done
      rcases modifierStep_none hstep with hnone | ⟨tok, htok, hn⟩
      · have hlen : A.length ≤ st.i := List.getElem?_eq_none_iff.mp hnone
        have heq : st.i = A.length + 0 := by omega
        have hget : (A ++ B)[st.i]? = B.head? := by
          rw [heq, append_getElem?_right]
          cases B <;> simp
        cases hb : B.head? with
        | none => exact modifierStep_end (hget.trans hb)
        | some r => exact modifierStep_stop (hget.trans hb) (hB r hb)
      · exact modifierStep_stop (append_getElem?_left B htok) hn
    | some r =>
      cases r with
      | error e => rw [hstep] at h; simp at h
      | ok st1 =>
        rw [hstep] at h
        have hc := modifierStep_cursor hstep
        rw [modifierLoop_step (modifierStep_append_ok B hstep)]
        exact ih st1 st' hc.2 h

theorem clausesWithLiterals_append (B : List String) :
    ∀ (mods l : List String), mods.count "--default" ≤ l.length →
      clausesWithLiterals mods (l ++ B) = clausesWithLiterals mods l := by
  intro mods
  induction mods with
  | nil => intro l _; rfl
  | cons m mods ih =>
    intro l hl
    by_cases hd : m = "--default"
    · subst hd
      simp only [List.count_cons_self] at hl
      cases l with
      | nil => simp at hl
      | cons x xs =>
        simp only [List.length_cons] at hl
        simp only [List.cons_append, clausesWithLiterals, if_true]
        rw [ih xs (by omega)]
    · have hne : ¬ (m == "--default") = true := by simpa using hd
      simp only [List.count_cons, hne, if_false, Nat.add_zero] at hl
      simp only [clausesWithLiterals, hd, if_false]
      rw [ih l hl]

theorem applyModifiers_append (A B : List String) (mods : List String) (column_def : String)
    (i : Nat) (hi : i + mods.count "--default" ≤ A.length) :
    applyModifiers (A ++ B) mods column_def i = applyModifiers A mods column_def i := by
  rw [applyModifiers_literals, applyModifiers_literals]
  have hdrop : List.drop i (A ++ B) = List.drop i A ++ B := by
    rw [List.drop_append_of_le_length (by omega)]
  rw [hdrop, clausesWithLiterals_append B mods _ (by simp; omega)]

/-- An iteration of the column loop that goes through on `A`, with every
`--default` of the column served within `A`, goes through in the same way
on `A ++ B`. -/
theorem columnStep_append {A : List String} (B : List String) {s s' : LoopState}
    (hB : ∀ r, B.head? = some r → r ∉ FIELD_MODIFIERS)
    (h : columnStep A s = some (.ok s'))
    (hserved : ∀ st, modifierLoop A (A.length + 1) (ColState.init (s.i + 2)) = .ok st →
      st.i + st.modifiers.count "--default" ≤ A.length) :
    columnStep (A ++ B) s = some (.ok s') := by
  obtain ⟨ty, name, st, hty, hmem, hname, hst, _, _⟩ := columnStep_appends h
  have hlt := getElem?_lt hname
  have hloop := modifierLoop_append B hB _ (ColState.init (s.i + 2)) st
    (by simp [ColState.init]; omega) hst
  rw [columnStep_ok hty hmem hname hst] at h
  rw [columnStep_ok (append_getElem?_left B hty) hmem (append_getElem?_left B hname) hloop,
    applyModifiers_append A B _ _ _ (hserved st hst)]
  exact h

theorem columnReach_append {A : List String} (B : List String)
    (hB : ∀ r, B.head? = some r → r ∉ FIELD_MODIFIERS) (hserved : DefaultsServed A)
    {s : LoopState} (h : ColumnReach A s) : ColumnReach (A ++ B) s := by
  induction h with
  | start => exact ColumnReach.start
  | step hr hstep ih =>
    exact ColumnReach.step ih
      (columnStep_append B hB hstep (fun st hst => hserved _ _ st hr hstep hst))

theorem columnReach_cursor {fields : List String} {s : LoopState} (h : ColumnReach fields s) :
    s.i ≤ fields.length := by
  induction h with
  | start => simp [LoopState.start]
  | step _ hstep _ => exact (columnStep_cursor hstep).2

theorem columnStep_none {fields : List String} {s : LoopState}
    (h : columnStep fields s = none) : fields[s.i]? = none := by
  unfold columnStep at h
  split at h
  · assumption
  · exfalso
    revert h
    repeat' split
    all_goals simp

theorem type_not_modifier {r : String} (h : r ∈ FIELD_TYPES) : r ∉ FIELD_MODIFIERS := by
  simp only [FIELD_TYPES, List.mem_cons, List.mem_singleton, List.not_mem_nil, or_false] at h
  rcases h with h | h | h | h | h | h | h <;> subst h <;> decide

/-- A token list that the column loop accepts is empty or starts with a type
flag. -/
theorem columnLoop_head {B : List String} {sB : LoopState}
    (h : columnLoop B (B.length + 1) LoopState.start = .ok sB) :
    ∀ r, B.head? = some r → r ∈ FIELD_TYPES := by
  intro r hr
  cases B with
  | nil => simp at hr
  | cons b rest =>
    simp at hr; subst hr
    by_contra hn
    have hstep : columnStep (b :: rest) LoopState.start = some (.error (.invalidFieldType b)) := by
      simp [columnStep, LoopState.start, hn]
    rw [columnLoop_error hstep] at h
    simp at h

theorem build_ok_loop {table_name : String} {fields : List String} {sql : String}
    (h : build_create_table_sql table_name fields = .ok sql) :
    ∃ s, columnLoop fields (fields.length + 1) LoopState.start = .ok s := by
  cases hloop : columnLoop fields (fields.length + 1) LoopState.start with
  | error e => rw [build_of_loop_error hloop] at h; simp at h
  | ok s => exact ⟨s, rfl⟩

/-- The column loop on `A ++ B` gathers what it gathers on `A`, then what it
gathers on `B`. -/
theorem columnLoop_append {A B : List String} {sA sB : LoopState}
    (hA : columnLoop A (A.length + 1) LoopState.start = .ok sA)
    (hB : columnLoop B (B.length + 1) LoopState.start = .ok sB)
    (hserved : DefaultsServed A) :
    columnLoop (A ++ B) ((A ++ B).length + 1) LoopState.start =
      .ok { i := A.length + sB.i, columns := sA.columns ++ sB.columns,
            constraints := sA.constraints ++ sB.constraints } := by
  have hhead : ∀ r, B.head? = some r → r ∉ FIELD_MODIFIERS :=
    fun r hr => type_not_modifier (columnLoop_head hB r hr)
  have hreachA := columnLoop_reach A _ _ sA ColumnReach.start hA
  have hendA : sA.i = A.length := by
    have h1 := columnReach_cursor hreachA
    have h2 : A.length ≤ sA.i :=
      List.getElem?_eq_none_iff.mp (columnStep_none (columnLoop_final A _ _ sA hA))
    omega
  have hreach := columnReach_append B hhead hserved hreachA
  rw [columnLoop_of_reach hreach]
  have hshift := columnLoop_shift A B sA.columns sA.constraints _ _ sB hB
  simp only [LoopState.start, Nat.add_zero, List.append_nil] at hshift
  have hsA : sA = { i := A.length, columns := sA.columns, constraints := sA.constraints } := by
    cases sA; simp at hendA; simp [hendA]
  rw [hsA]
  exact hshift

theorem modifierStep_noDefault {fields : List String} {st st' : ColState}
    (hf : "--default" ∉ fields) (h : modifierStep fields st = some (.ok st'))
    (hm : "--default" ∉ st.modifiers) : "--default" ∉ st'.modifiers := by
  unfold modifierStep at h
  split at h
  · simp at h
  · rename_i mod hmod
    have hmem : mod ∈ fields := List.getElem?_mem hmod
    split at h
    · simp at h
    · split at h
      · split at h
        · simp at h
        · split at h
          · simp at h
          · simp at h; subst h; exact hm
      · split at h
        · split at h
          · simp at h
          · split at h
            · simp at h
            · simp at h; subst h; exact hm
        · split at h
          · split at h
            · simp at h
            · split at h
              · simp at h
              · simp at h; subst h; exact hm
          · simp at h; subst h
            intro hin
            rcases List.mem_append.mp hin with hin | hin
            · exact hm hin
            · simp at hin; subst hin; exact hf hmem

theorem modifierLoop_noDefault {fields : List String} (hf : "--default" ∉ fields) :
    ∀ (fuel : Nat) (st st' : ColState), modifierLoop fields fuel st = .ok st' →
      "--default" ∉ st.modifiers → "--default" ∉ st'.modifiers := by
  intro fuel
  induction fuel with
  | zero => intro st st' h; simp [modifierLoop] at h
  | succ fuel ih =>
    intro st st' h hm
    simp only [modifierLoop] at h
    cases hstep : modifierStep fields st with
    | none => rw [hstep] at h; simp at h; subst h; exact hm
    | some r =>
      cases r with
      | error e => rw [hstep] at h; simp at h
      | ok st1 =>
        rw [hstep] at h
        exact ih st1 st' h (modifierStep_noDefault hf hstep hm)

/-- A token list without `--default` has every `--default` served. -/
theorem defaultsServed_of_not_mem {A : List String} (h : "--default" ∉ A) :
    DefaultsServed A := by
  intro s s' st _ hstep hst
  obtain ⟨_, name, _, _, _, hname, _, _, _⟩ := columnStep_appends hstep
  have hlt := getElem?_lt hname
  have hno := modifierLoop_noDefault h _ _ st hst (by simp [ColState.init])
  have hcur := (modifierLoop_cursor A _ _ st hst).2 (by simp [ColState.init]; omega)
  rw [List.count_eq_zero.mpr hno]
  exact hcur

/-- C12, as the code has it: a type flag under the cursor of the modifier
loop ends the loop, and the next column starts at that flag when the column
has collected no `--default`; and for token lists `A` and `B` that each
translate on their own, where every `--default` of `A` finds its literal
within `A` (as it does when `A` holds no `--default`), `A` followed by `B`
translates, to the column definitions of `A` followed by those of `B` and
then the constraints of `A` followed by those of `B`. -/
theorem c12_concatenation (table_name : String) (A B : List String) (sqlA sqlB : String)
    (hA : build_create_table_sql table_name A = .ok sqlA)
    (hB : build_create_table_sql table_name B = .ok sqlB)
    (hserved : DefaultsServed A) :
    (∀ (fields : List String) (st : ColState) (ty : String),
      fields[st.i]? = some ty → ty ∈ FIELD_TYPES → modifierStep fields st = none) ∧
    (∀ (fields : List String) (s s' : LoopState) (st : ColState),
      columnStep fields s = some (.ok s') →
      modifierLoop fields (fields.length + 1) (ColState.init (s.i + 2)) = .ok st →
      "--default" ∉ st.modifiers → s'.i = st.i) ∧
    ("--default" ∉ A → DefaultsServed A) ∧
    ∃ sA sB : LoopState,
      columnLoop A (A.length + 1) LoopState.start = .ok sA ∧
      columnLoop B (B.length + 1) LoopState.start = .ok sB ∧
      columnLoop (A ++ B) ((A ++ B).length + 1) LoopState.start =
        .ok { i := A.length + sB.i, columns := sA.columns ++ sB.columns,
              constraints := sA.constraints ++ sB.constraints } ∧
      build_create_table_sql table_name (A ++ B) =
        .ok ("CREATE TABLE " ++ table_name ++ " (\n" ++
          joinLines ((sA.columns ++ sB.columns) ++
            (sA.constraints ++ sB.constraints).map fun c => "  " ++ c) ++ "\n);") := by
  refine ⟨fun fields st ty hty hmem => modifierStep_stop hty (type_not_modifier hmem),
    fun fields s s' st hstep hst hno => ?_, defaultsServed_of_not_mem, ?_⟩
  · obtain ⟨ty, name, st1, hty, hmem, hname, hst1, _, _⟩ := columnStep_appends hstep
    rw [columnStep_ok hty hmem hname hst] at hstep
    simp at hstep
    rw [← hstep, applyModifiers_literals, clausesWithLiterals_count,
      List.count_eq_zero.mpr hno]
    simp
  · obtain ⟨sA, hsA⟩ := build_ok_loop hA
    obtain ⟨sB, hsB⟩ := build_ok_loop hB
    have hloop := columnLoop_append hsA hsB hserved
    refine ⟨sA, sB, hsA, hsB, hloop, ?_⟩
    rw [build_of_loop hloop, emit_eq]

/-- C12 at `--int id --pk` followed by `--text name --notnull`. -/
theorem c12_concatenation_witness :
    ∃ sA sB : LoopState,
      columnLoop ["--int", "id", "--pk"] (["--int", "id", "--pk"].length + 1)
        LoopState.start = .ok sA ∧
      columnLoop ["--text", "name", "--notnull"] (["--text", "name", "--notnull"].length + 1)
        LoopState.start = .ok sB ∧
      columnLoop (["--int", "id", "--pk"] ++ ["--text", "name", "--notnull"])
          ((["--int", "id", "--pk"] ++ ["--text", "name", "--notnull"]).length + 1)
          LoopState.start =
        .ok { i := ["--int", "id", "--pk"].length + sB.i, columns := sA.columns ++ sB.columns,
              constraints := sA.constraints ++ sB.constraints } ∧
      build_create_table_sql "t" (["--int", "id", "--pk"] ++ ["--text", "name", "--notnull"]) =
        .ok ("CREATE TABLE " ++ "t" ++ " (\n" ++
          joinLines ((sA.columns ++ sB.columns) ++
            (sA.constraints ++ sB.constraints).map fun c => "  " ++ c) ++ "\n);") :=
  (c12_concatenation "t" ["--int", "id", "--pk"] ["--text", "name", "--notnull"]
    "CREATE TABLE t (\n  id INTEGER PRIMARY KEY\n);"
    "CREATE TABLE t (\n  name TEXT NOT NULL\n);" rfl rfl
    (defaultsServed_of_not_mem (by decide))).2.2.2

/-- C12 fails as stated: `--int n --default` and `--int m` each translate on
their own, and the first followed by the second does not: the `--default`
takes the type flag `--int` as its literal and `m` stands at a column
position. -/
theorem c12_counterexample :
    build_create_table_sql "t" ["--int", "n", "--default"] =
      .ok "CREATE TABLE t (\n  n INTEGER\n);" ∧
    build_create_table_sql "t" ["--int", "m"] = .ok "CREATE TABLE t (\n  m INTEGER\n);" ∧
    build_create_table_sql "t" (["--int", "n", "--default"] ++ ["--int", "m"]) =
      .error (.invalidFieldType "m") :=
  ⟨rfl, rfl, rfl⟩

end FastDB
